import Mathlib

/-!
# Cloak: internal/server/usermanager/user.go

A shallow embedding of the per-user session registry and policy setters of
`user.go`, and the properties of the registry, the shared valve and the
directory notification that follow from the code.

Conventions of the embedding.

* Go pointers are addresses: a `*mux.Valve` is a `ValveRef` into the store of
  Valve objects, a `*mux.Session` is a `SessionPtr` (`none` is Go's `nil`).
* `uint32` values (session ids, `SessionsCap`) and bytes are naturals on which
  no arithmetic is done; `int64` values are integers, and the one place where
  the code adds (`AddRxCredit` / `AddTxCredit`) wraps with `wrap64`.
* Every method of `*User` is a function on `State`: the `User` struct, the
  store of Valve objects its `valve` field points into, the private state of
  the multiplex package and the trace of calls that leave the struct (mutex
  operations, map accesses, `log.Printf`, `mux.MakeSession`,
  `up.delActiveUser`).  A method call is one atomic step; the registry mutex
  is free between two steps, so its state is not a component of `State` and
  its operations appear in the trace only.
* The three function values handed to `GetOrCreateSession` are opaque
  capabilities: values of arbitrary types `O`, `D`, `R`.
-/

namespace Usermanager

/-! ## Machine integers and pointers -/

/-- Go `int64` wrap-around: the representative of `x` modulo `2^64` that lies
in `[-2^63, 2^63)`. -/
def wrap64 (x : Int) : Int := (x + 2 ^ 63) % 2 ^ 64 - 2 ^ 63

/-- The values an `int64` can hold. -/
def isInt64 (x : Int) : Prop := -(2 ^ 63) ≤ x ∧ x < 2 ^ 63

instance (x : Int) : Decidable (isInt64 x) := by unfold isInt64; infer_instance

/-- A `*mux.Valve`: the address of a Valve object. -/
abbrev ValveRef := Nat

/-- A `*mux.Session`: `none` is `nil`, `some a` the address of a Session object. -/
abbrev SessionPtr := Option Nat

/-! ## `UserInfo` (user.go, lines 13-22) -/

/-- The Go struct `UserInfo`. -/
structure UserInfo where
  UID : List Nat
  SessionsCap : Nat
  UpRate : Int
  DownRate : Int
  UpCredit : Int
  DownCredit : Int
  ExpiryTime : Int
deriving DecidableEq, Repr

/-! ## The Valve of `internal/multiplex` -/

/-- Modelled from the spec: the `mux.Valve` object, whose declaration is in
`internal/multiplex` and not in this file.  Spec, section 3: "State = current
inbound/outbound rate ceilings, current inbound/outbound credit balances".
The two credit cells are the ones `MakeValve` is given pointers to. -/
structure Valve where
  rxRate : Int
  txRate : Int
  rxCredit : Int
  txCredit : Int
deriving DecidableEq, Repr

instance : Inhabited Valve := ⟨⟨0, 0, 0, 0⟩⟩

/-- Modelled from the spec: `mux.MakeValve(rxRate, txRate, &rxCredit, &txCredit)`,
"constructed with initial up/down rate ceilings and pointers/references to the
initial up/down credit balances".  The arguments `rxCredit`, `txCredit` are the
contents of the two cells pointed to, which from then on belong to the Valve. -/
def MakeValve (rxRate txRate rxCredit txCredit : Int) : Valve :=
  { rxRate := rxRate, txRate := txRate, rxCredit := rxCredit, txCredit := txCredit }

/-- Modelled from the spec: `AddRxCredit(delta)`, "atomically add a signed delta
to inbound credit"; the sum is an `int64`. -/
def Valve.AddRxCredit (v : Valve) (delta : Int) : Valve :=
  { v with rxCredit := wrap64 (v.rxCredit + delta) }

/-- Modelled from the spec: `AddTxCredit(delta)`, "atomically add a signed delta
to outbound credit"; the sum is an `int64`. -/
def Valve.AddTxCredit (v : Valve) (delta : Int) : Valve :=
  { v with txCredit := wrap64 (v.txCredit + delta) }

/-- Modelled from the spec: `SetRxCredit(n)`, "atomically overwrite inbound credit". -/
def Valve.SetRxCredit (v : Valve) (n : Int) : Valve := { v with rxCredit := n }

/-- Modelled from the spec: `SetTxCredit(n)`, "atomically overwrite outbound credit". -/
def Valve.SetTxCredit (v : Valve) (n : Int) : Valve := { v with txCredit := n }

/-- Modelled from the spec: `SetRxRate(r)`, "atomically overwrite inbound rate ceiling". -/
def Valve.SetRxRate (v : Valve) (rate : Int) : Valve := { v with rxRate := rate }

/-- Modelled from the spec: `SetTxRate(r)`, "atomically overwrite outbound rate ceiling". -/
def Valve.SetTxRate (v : Valve) (rate : Int) : Valve := { v with txRate := rate }

/-! ## The Go map `map[uint32]*mux.Session` -/

/-- The entries of the map: every key of the map is the first component of an
entry, and the first entry with a given key holds its value. -/
abbrev Registry := List (Nat × SessionPtr)

/-- The entry stored under key `k`, if the map has that key (the value of an
entry may itself be `nil`). -/
def mapFind (m : Registry) (k : Nat) : Option SessionPtr :=
  match m with
  | [] => none
  | (k', v) :: rest => if k' = k then some v else mapFind rest k

/-- Go `m[k]`: the stored value, or the zero value `nil` when `k` is not a key. -/
def mapGet (m : Registry) (k : Nat) : SessionPtr :=
  match mapFind m k with
  | some v => v
  | none => none

/-- Go `delete(m, k)`. -/
def mapDelete (m : Registry) (k : Nat) : Registry :=
  m.filter (fun e => decide (e.1 ≠ k))

/-- Go `m[k] = v`. -/
def mapStore (m : Registry) (k : Nat) (v : SessionPtr) : Registry :=
  (k, v) :: mapDelete m k

/-- Go `len(m)`: the number of keys. -/
def mapLen (m : Registry) : Nat := (m.map Prod.fst).dedup.length

/-! ## `User` (user.go, lines 24-37) -/

/-- The Go struct `User`.  The embedded `UserInfo` is the parent structure, so
that its fields are the promoted fields `u.UID`, `u.SessionsCap`, ...; `up` is
the `*Userpanel`; `sessionsM` has no field here (see the header). -/
structure User extends UserInfo where
  up : Nat
  arrUID : List Nat
  valve : ValveRef
  sessions : Registry
deriving DecidableEq, Repr

/-! ## Events and states -/

/-- The calls a method of `*User` makes outside the struct's own fields, in
program order.  `makeSession` records the five arguments of `mux.MakeSession`
and the pointer it returned.  `delActiveUser` records the receiver `u.up` and
the argument `u.UID` of `up.delActiveUser`, a method of the directory
(`Userpanel`, not in this file) that acts on the directory and not on the
`User`. -/
inductive Event (O D R : Type) where
  | lock
  | unlock
  | rlock
  | runlock
  | mapLoad (sessionID : Nat)
  | mapStore (sessionID : Nat) (sesh : SessionPtr)
  | mapDelete (sessionID : Nat)
  | mapLen
  | logPrintf (sessionID : Nat)
  | makeSession (sessionID : Nat) (valve : ValveRef) (obfs : O) (deobfs : D)
      (obfsedRead : R) (sesh : SessionPtr)
  | delActiveUser (up : Nat) (uid : List Nat)
deriving DecidableEq, Repr

/-- Everything outside the `User` struct: the store of Valve objects with its
allocation pointer, the private state `M` of the multiplex package, and the
trace of events so far. -/
structure World (O D R M : Type) where
  valves : ValveRef → Valve
  nextValve : ValveRef
  mux : M
  trace : List (Event O D R)

/-- A world together with the `User` struct the methods are called on. -/
structure State (O D R M : Type) extends World O D R M where
  u : User

/-- The function `mux.MakeSession(id, valve, obfs, deobfs, obfsedRead)`, which is
not in this file: a parameter of the embedding.  It may read and change the
private state of the multiplex package and returns a `*mux.Session`. -/
abbrev MakeSessionFn (O D R M : Type) :=
  Nat → ValveRef → O → D → R → M → SessionPtr × M

variable {O D R M : Type}

/-- Append events to the trace. -/
def State.emit (s : State O D R M) (es : List (Event O D R)) : State O D R M :=
  { s with trace := s.trace ++ es }

/-- Run a method of the Valve object that `u.valve` points to. -/
def State.onValve (s : State O D R M) (f : Valve → Valve) : State O D R M :=
  { s with valves := Function.update s.valves s.u.valve (f (s.valves s.u.valve)) }

/-- The Valve object that `u.valve` points to. -/
def State.theValve (s : State O D R M) : Valve := s.valves s.u.valve

/-- Assign the map `u.sessions`. -/
def State.setSessions (s : State O D R M) (m : Registry) : State O D R M :=
  { s with u := { s.u with sessions := m } }

/-! ## `MakeUser` (user.go, lines 39-50) -/

/-- Go `copy(dst[:], src)` into a zeroed `[32]byte`. -/
def copy32 (src : List Nat) : List Nat :=
  src.take 32 ++ List.replicate (32 - src.length) 0

/-- `MakeUser(up, uinfo)`.  The Valve is built from the rate fields of the
parameter `uinfo` and from pointers to ITS credit fields (the parameter is a
copy of the caller's struct, and the struct literal copies it once more into
`u.UserInfo`): the Valve's credit cells start with the parameter's values and
are distinct from the fields of `u.UserInfo`. -/
def MakeUser (w : World O D R M) (up : Nat) (uinfo : UserInfo) : State O D R M :=
  let valve : ValveRef := w.nextValve
  let obj := MakeValve uinfo.UpRate uinfo.DownRate uinfo.UpCredit uinfo.DownCredit
  { valves := Function.update w.valves valve obj
    nextValve := w.nextValve + 1
    mux := w.mux
    trace := w.trace
    u := { toUserInfo := uinfo
           up := up
           arrUID := copy32 uinfo.UID
           valve := valve
           sessions := [] } }

/-! ## Credit adjustment and setters (user.go, lines 52-59) -/

/-- `u.addUpCredit(delta)`. -/
def addUpCredit (s : State O D R M) (delta : Int) : State O D R M :=
  s.onValve (fun v => v.AddRxCredit delta)

/-- `u.addDownCredit(delta)`. -/
def addDownCredit (s : State O D R M) (delta : Int) : State O D R M :=
  s.onValve (fun v => v.AddTxCredit delta)

/-- `u.setSessionsCap(cap)`: `atomic.StoreUint32(&u.SessionsCap, cap)`. -/
def setSessionsCap (s : State O D R M) (cap : Nat) : State O D R M :=
  { s with u := { s.u with SessionsCap := cap } }

/-- `u.setUpRate(rate)`. -/
def setUpRate (s : State O D R M) (rate : Int) : State O D R M :=
  s.onValve (fun v => v.SetRxRate rate)

/-- `u.setDownRate(rate)`. -/
def setDownRate (s : State O D R M) (rate : Int) : State O D R M :=
  s.onValve (fun v => v.SetTxRate rate)

/-- `u.setUpCredit(n)`. -/
def setUpCredit (s : State O D R M) (n : Int) : State O D R M :=
  s.onValve (fun v => v.SetRxCredit n)

/-- `u.setDownCredit(n)`. -/
def setDownCredit (s : State O D R M) (n : Int) : State O D R M :=
  s.onValve (fun v => v.SetTxCredit n)

/-- `u.setExpiryTime(time)`: `atomic.StoreInt64(&u.ExpiryTime, time)`. -/
def setExpiryTime (s : State O D R M) (time : Int) : State O D R M :=
  { s with u := { s.u with ExpiryTime := time } }

/-! ## `updateInfo` (user.go, lines 61-68) -/

/-- `u.updateInfo(uinfo)`: the six calls of the body, in program order. -/
def updateInfo (s : State O D R M) (uinfo : UserInfo) : State O D R M :=
  let s := setSessionsCap s uinfo.SessionsCap
  let s := setUpCredit s uinfo.UpCredit
  let s := setDownCredit s uinfo.DownCredit
  let s := setUpRate s uinfo.UpRate
  let s := setDownRate s uinfo.DownRate
  setExpiryTime s uinfo.ExpiryTime

/-! ## The session registry (user.go, lines 70-107) -/

/-- `u.GetSession(sessionID)`: the returned pointer and the state after the call. -/
def GetSession (s : State O D R M) (sessionID : Nat) : SessionPtr × State O D R M :=
  let s := s.emit [Event.rlock]
  let sesh := mapGet s.u.sessions sessionID
  let s := s.emit [Event.mapLoad sessionID]
  let s := s.emit [Event.runlock]
  (sesh, s)

/-- `u.PutSession(sessionID, sesh)`. -/
def PutSession (s : State O D R M) (sessionID : Nat) (sesh : SessionPtr) : State O D R M :=
  let s := s.emit [Event.lock]
  let s := (s.setSessions (mapStore s.u.sessions sessionID sesh)).emit
    [Event.mapStore sessionID sesh]
  s.emit [Event.unlock]

/-- `u.DelSession(sessionID)`. -/
def DelSession (s : State O D R M) (sessionID : Nat) : State O D R M :=
  let s := s.emit [Event.lock]
  let s := (s.setSessions (mapDelete s.u.sessions sessionID)).emit [Event.mapDelete sessionID]
  let s := s.emit [Event.mapLen]
  if mapLen s.u.sessions = 0 then
    let s := s.emit [Event.unlock]
    s.emit [Event.delActiveUser s.u.up s.u.UID]
  else
    s.emit [Event.unlock]

/-- `u.GetOrCreateSession(sessionID, obfs, deobfs, obfsedRead)`: the pair
`(sesh, existing)` and the state after the call. -/
def GetOrCreateSession (mk : MakeSessionFn O D R M) (s : State O D R M) (sessionID : Nat)
    (obfs : O) (deobfs : D) (obfsedRead : R) : (SessionPtr × Bool) × State O D R M :=
  let s := s.emit [Event.lock]
  let s := s.emit [Event.mapLoad sessionID]
  match mapGet s.u.sessions sessionID with
  | some a =>
    let s := s.emit [Event.unlock]
    ((some a, true), s)
  | none =>
    let s := s.emit [Event.logPrintf sessionID]
    let r := mk sessionID s.u.valve obfs deobfs obfsedRead s.mux
    let sesh := r.1
    let s := { s with mux := r.2 }
    let s := s.emit [Event.makeSession sessionID s.u.valve obfs deobfs obfsedRead sesh]
    let s := (s.setSessions (mapStore s.u.sessions sessionID sesh)).emit
      [Event.mapStore sessionID sesh]
    let s := s.emit [Event.unlock]
    ((sesh, false), s)

/-! ## Sequences of method calls -/

/-- One call of a method of `*User`, with its arguments. -/
inductive Op (O D R : Type) where
  | addUpCredit (delta : Int)
  | addDownCredit (delta : Int)
  | setSessionsCap (cap : Nat)
  | setUpRate (rate : Int)
  | setDownRate (rate : Int)
  | setUpCredit (n : Int)
  | setDownCredit (n : Int)
  | setExpiryTime (time : Int)
  | updateInfo (uinfo : UserInfo)
  | GetSession (sessionID : Nat)
  | PutSession (sessionID : Nat) (sesh : SessionPtr)
  | DelSession (sessionID : Nat)
  | GetOrCreateSession (sessionID : Nat) (obfs : O) (deobfs : D) (obfsedRead : R)
deriving DecidableEq, Repr

/-- The state after one call. -/
def step (mk : MakeSessionFn O D R M) (s : State O D R M) : Op O D R → State O D R M
  | Op.addUpCredit delta => addUpCredit s delta
  | Op.addDownCredit delta => addDownCredit s delta
  | Op.setSessionsCap cap => setSessionsCap s cap
  | Op.setUpRate rate => setUpRate s rate
  | Op.setDownRate rate => setDownRate s rate
  | Op.setUpCredit n => setUpCredit s n
  | Op.setDownCredit n => setDownCredit s n
  | Op.setExpiryTime time => setExpiryTime s time
  | Op.updateInfo uinfo => updateInfo s uinfo
  | Op.GetSession sessionID => (GetSession s sessionID).2
  | Op.PutSession sessionID sesh => PutSession s sessionID sesh
  | Op.DelSession sessionID => DelSession s sessionID
  | Op.GetOrCreateSession sessionID obfs deobfs obfsedRead =>
    (GetOrCreateSession mk s sessionID obfs deobfs obfsedRead).2

/-- The state after a sequence of calls, each one an atomic step. -/
def run (mk : MakeSessionFn O D R M) (s : State O D R M) : List (Op O D R) → State O D R M
  | [] => s
  | op :: ops => run mk (step mk s op) ops

/-- The pairs `(sesh, existing)` returned, in order, by the calls of
`GetOrCreateSession` with session id `sessionID` in a sequence of calls. -/
def createResults (mk : MakeSessionFn O D R M) (sessionID : Nat) :
    State O D R M → List (Op O D R) → List (SessionPtr × Bool)
  | _, [] => []
  | s, Op.GetOrCreateSession id' obfs deobfs obfsedRead :: ops =>
    let r := GetOrCreateSession mk s id' obfs deobfs obfsedRead
    if id' = sessionID then r.1 :: createResults mk sessionID r.2 ops
    else createResults mk sessionID r.2 ops
  | s, op :: ops => createResults mk sessionID (step mk s op) ops

/-- A call that assigns or removes the registry entry of `sessionID` by
`PutSession` or `DelSession`. -/
def Op.putsOrDels (sessionID : Nat) : Op O D R → Bool
  | Op.PutSession id' _ => decide (id' = sessionID)
  | Op.DelSession id' => decide (id' = sessionID)
  | _ => false

/-- A call of `GetOrCreateSession` with session id `sessionID`. -/
def Op.createsAt (sessionID : Nat) : Op O D R → Bool
  | Op.GetOrCreateSession id' _ _ _ => decide (id' = sessionID)
  | _ => false

/-- The value of `u.SessionsCap` that the setters of a sequence of calls leave:
the argument of the last `setSessionsCap` or `updateInfo`, or `cap` if none. -/
def capAfter (cap : Nat) : List (Op O D R) → Nat
  | [] => cap
  | Op.setSessionsCap c :: ops => capAfter c ops
  | Op.updateInfo uinfo :: ops => capAfter uinfo.SessionsCap ops
  | _ :: ops => capAfter cap ops

/-- The value of `u.ExpiryTime` that the setters of a sequence of calls leave:
the argument of the last `setExpiryTime` or `updateInfo`, or `time` if none. -/
def expiryAfter (time : Int) : List (Op O D R) → Int
  | [] => time
  | Op.setExpiryTime t :: ops => expiryAfter t ops
  | Op.updateInfo uinfo :: ops => expiryAfter uinfo.ExpiryTime ops
  | _ :: ops => expiryAfter time ops

/-- The calls `u.addUpCredit(d)` for the deltas `d` of a list, one after the other. -/
def adjustUp (s : State O D R M) (ds : List Int) : State O D R M :=
  ds.foldl addUpCredit s

/-- The calls `u.addDownCredit(d)` for the deltas `d` of a list, one after the other. -/
def adjustDown (s : State O D R M) (ds : List Int) : State O D R M :=
  ds.foldl addDownCredit s

/-! ## Reading traces -/

/-- The calls `up.delActiveUser(uid)` in a trace, in order. -/
def notifications : List (Event O D R) → List (Nat × List Nat)
  | [] => []
  | Event.delActiveUser up uid :: tr => (up, uid) :: notifications tr
  | _ :: tr => notifications tr

/-- The calls of `mux.MakeSession` in a trace, in order: the five arguments and
the pointer returned. -/
def constructions : List (Event O D R) → List (Nat × ValveRef × O × D × R × SessionPtr)
  | [] => []
  | Event.makeSession sessionID valve obfs deobfs obfsedRead sesh :: tr =>
    (sessionID, valve, obfs, deobfs, obfsedRead, sesh) :: constructions tr
  | _ :: tr => constructions tr

/-- The calls of `mux.MakeSession` for session id `sessionID` in a trace. -/
def constructionsOf (sessionID : Nat) (tr : List (Event O D R)) :
    List (Nat × ValveRef × O × D × R × SessionPtr) :=
  (constructions tr).filter (fun c => decide (c.1 = sessionID))

/-- The events emitted on the way from state `s` to state `t`. -/
def since (s t : State O D R M) : List (Event O D R) := t.trace.drop s.trace.length

/-- Whether the exclusive lock of `sessionsM` is held after the events of a
trace, given whether it was held before. -/
def lockHeld : Bool → List (Event O D R) → Bool
  | held, [] => held
  | _, Event.lock :: tr => lockHeld true tr
  | _, Event.unlock :: tr => lockHeld false tr
  | held, _ :: tr => lockHeld held tr

/-- An access to the map `u.sessions`. -/
def Event.isMapAccess : Event O D R → Bool
  | Event.mapLoad _ => true
  | Event.mapStore _ _ => true
  | Event.mapDelete _ => true
  | Event.mapLen => true
  | _ => false

/-- A call of `up.delActiveUser`. -/
def Event.isNotify : Event O D R → Bool
  | Event.delActiveUser _ _ => true
  | _ => false

/-- An acquisition of the exclusive lock. -/
def Event.isLock : Event O D R → Bool
  | Event.lock => true
  | _ => false

/-- A release of the exclusive lock. -/
def Event.isUnlock : Event O D R → Bool
  | Event.unlock => true
  | _ => false

/-- A call of `mux.MakeSession`. -/
def Event.isConstruct : Event O D R → Bool
  | Event.makeSession _ _ _ _ _ _ => true
  | _ => false

/-! ## Concrete inputs -/

/-- A world with no event yet, in which Valve addresses start at 1. -/
def exWorld : World Nat Nat Nat Nat :=
  { valves := fun _ => default, nextValve := 1, mux := 0, trace := [] }

/-- The policy record of the example scenario of the specification. -/
def exInfo : UserInfo :=
  { UID := [10, 20, 30], SessionsCap := 5, UpRate := 100, DownRate := 100,
    UpCredit := 1000, DownCredit := 1000, ExpiryTime := 0 }

/-- A `MakeSession` that allocates Session objects at consecutive addresses. -/
def exMake : MakeSessionFn Nat Nat Nat Nat :=
  fun _ _ _ _ _ m => (some (m + 1), m + 1)

/-- A user fresh from `MakeUser`. -/
def exUser : State Nat Nat Nat Nat := MakeUser exWorld 7 exInfo

/-- The example user with session 11 stored at id 1. -/
def exOne : State Nat Nat Nat Nat := PutSession exUser 1 (some 11)

/-- The example user with sessions stored at ids 1 and 2. -/
def exTwo : State Nat Nat Nat Nat := PutSession exOne 2 (some 12)

/-- A sequence of calls on the example user: three calls for id 1 with
different capabilities, among calls on id 2 and setters. -/
def exOps : List (Op Nat Nat Nat) :=
  [Op.GetOrCreateSession 1 100 200 300, Op.setUpRate 5, Op.GetOrCreateSession 2 0 0 0,
   Op.GetOrCreateSession 1 101 201 301, Op.DelSession 2, Op.PutSession 3 none,
   Op.GetOrCreateSession 1 102 202 302]

/-! ## Lemmas on the map -/


theorem mapDelete_cons (k' : Nat) (v : SessionPtr) (rest : Registry) (k : Nat) :
    mapDelete ((k', v) :: rest) k
      = if k' = k then mapDelete rest k else (k', v) :: mapDelete rest k := by
  by_cases h : k' = k <;> simp [mapDelete, List.filter_cons, h]

theorem mapFind_mapDelete_self (m : Registry) (k : Nat) :
    mapFind (mapDelete m k) k = none := by
  induction m with
  | nil => rfl
  | cons e rest ih =>
    obtain ⟨k', v⟩ := e
    rw [mapDelete_cons]
    by_cases h : k' = k
    · simp [h, ih]
    · simp [h, mapFind, ih]

theorem mapFind_mapDelete_other (m : Registry) (k j : Nat) (h : j ≠ k) :
    mapFind (mapDelete m k) j = mapFind m j := by
  induction m with
  | nil => rfl
  | cons e rest ih =>
    obtain ⟨k', v⟩ := e
    rw [mapDelete_cons]
    by_cases hk : k' = k
    · have hj : ¬ k' = j := fun hj => h (hj.symm.trans hk)
      rw [if_pos hk, ih]
      simp [mapFind, hj]
    · rw [if_neg hk]
      by_cases hj : k' = j <;> simp [hj, mapFind, ih]

theorem mapDelete_of_absent (m : Registry) (k : Nat) (h : mapFind m k = none) :
    mapDelete m k = m := by
  induction m with
  | nil => rfl
  | cons e rest ih =>
    obtain ⟨k', v⟩ := e
    rw [mapDelete_cons]
    by_cases hk : k' = k
    · simp [mapFind, hk] at h
    · simp [mapFind, hk] at h
      simp [hk, ih h]

theorem mapFind_mapStore_self (m : Registry) (k : Nat) (v : SessionPtr) :
    mapFind (mapStore m k v) k = some v := by
  simp [mapStore, mapFind]

theorem mapFind_mapStore_other (m : Registry) (k j : Nat) (v : SessionPtr) (h : j ≠ k) :
    mapFind (mapStore m k v) j = mapFind m j := by
  have hk : ¬ k = j := fun e => h e.symm
  simp [mapStore, mapFind, hk, mapFind_mapDelete_other m k j h]

theorem mapGet_mapStore_self (m : Registry) (k : Nat) (v : SessionPtr) :
    mapGet (mapStore m k v) k = v := by
  simp [mapGet, mapFind_mapStore_self]

theorem mapGet_mapStore_other (m : Registry) (k j : Nat) (v : SessionPtr) (h : j ≠ k) :
    mapGet (mapStore m k v) j = mapGet m j := by
  simp [mapGet, mapFind_mapStore_other m k j v h]


theorem mapGet_mapDelete_other (m : Registry) (k j : Nat) (h : j ≠ k) :
    mapGet (mapDelete m k) j = mapGet m j := by
  simp [mapGet, mapFind_mapDelete_other m k j h]

theorem mapGet_of_absent (m : Registry) (k : Nat) (h : mapFind m k = none) :
    mapGet m k = none := by
  simp [mapGet, h]

theorem mapLen_eq_zero (m : Registry) : mapLen m = 0 ↔ m = [] := by
  simp [mapLen]



/-! ## Lemmas on traces -/

theorem notifications_append (a b : List (Event O D R)) :
    notifications (a ++ b) = notifications a ++ notifications b := by
  induction a with
  | nil => rfl
  | cons e rest ih => cases e <;> simp [notifications, ih]

theorem constructions_append (a b : List (Event O D R)) :
    constructions (a ++ b) = constructions a ++ constructions b := by
  induction a with
  | nil => rfl
  | cons e rest ih => cases e <;> simp [constructions, ih]

theorem since_of_trace (s t : State O D R M) (es : List (Event O D R))
    (h : t.trace = s.trace ++ es) : since s t = es := by
  simp [since, h]

theorem since_self (s : State O D R M) : since s s = [] := by
  simp [since]

/-! ## What each registry method does to the state -/

theorem GetSession_fst (s : State O D R M) (id : Nat) :
    (GetSession s id).1 = mapGet s.u.sessions id := rfl


theorem GetSession_trace (s : State O D R M) (id : Nat) :
    (GetSession s id).2.trace
      = s.trace ++ [Event.rlock, Event.mapLoad id, Event.runlock] := by
  simp [GetSession, State.emit]

theorem PutSession_sessions (s : State O D R M) (id : Nat) (p : SessionPtr) :
    (PutSession s id p).u.sessions = mapStore s.u.sessions id p := rfl

theorem PutSession_trace (s : State O D R M) (id : Nat) (p : SessionPtr) :
    (PutSession s id p).trace
      = s.trace ++ [Event.lock, Event.mapStore id p, Event.unlock] := by
  simp [PutSession, State.emit, State.setSessions]

theorem DelSession_sessions (s : State O D R M) (id : Nat) :
    (DelSession s id).u.sessions = mapDelete s.u.sessions id := by
  unfold DelSession
  simp only [State.emit, State.setSessions]
  split <;> rfl

theorem DelSession_trace (s : State O D R M) (id : Nat) :
    (DelSession s id).trace
      = s.trace ++ (if mapLen (mapDelete s.u.sessions id) = 0
          then [Event.lock, Event.mapDelete id, Event.mapLen, Event.unlock,
                Event.delActiveUser s.u.up s.u.UID]
          else [Event.lock, Event.mapDelete id, Event.mapLen, Event.unlock]) := by
  unfold DelSession
  simp only [State.emit, State.setSessions]
  split <;> simp

theorem DelSession_notifications (s : State O D R M) (id : Nat) :
    notifications (since s (DelSession s id))
      = if mapLen (mapDelete s.u.sessions id) = 0 then [(s.u.up, s.u.UID)] else [] := by
  rw [since_of_trace s _ _ (DelSession_trace s id)]
  split <;> simp [notifications]

theorem DelSession_u (s : State O D R M) (id : Nat) :
    (DelSession s id).u = { s.u with sessions := mapDelete s.u.sessions id } := by
  unfold DelSession
  simp only [State.emit, State.setSessions]
  split <;> rfl

theorem DelSession_valves (s : State O D R M) (id : Nat) :
    (DelSession s id).valves = s.valves := by
  unfold DelSession
  simp only [State.emit, State.setSessions]
  split <;> rfl


theorem mapLen_eq_zero_iff_no_key (m : Registry) :
    mapLen m = 0 ↔ ∀ k, mapFind m k = none := by
  rw [mapLen_eq_zero]
  constructor
  · intro h k
    rw [h]
    rfl
  · intro h
    cases m with
    | nil => rfl
    | cons e rest =>
      obtain ⟨k, v⟩ := e
      have := h k
      simp [mapFind] at this

/-! ## The claims on the registry -/

/-- Claim C6. Registry put/get.  After `PutSession(id, sesh)`, `GetSession(id)`
returns `sesh` (whatever the registry held before) and the entry and the result
of `GetSession(j)` for every other id `j` are as before; `PutSession` calls
`delActiveUser` not at all; `GetSession` changes neither the `User` struct (so
not the registry) nor the Valve store, and returns `nil` for every id that is
not a key of the registry, in particular for every id on a user fresh from
`MakeUser`. -/
theorem registry_put_get (s : State O D R M) (id : Nat) (sesh : SessionPtr)
    (j : Nat) (hj : j ≠ id) (k : Nat) (hk : mapFind s.u.sessions k = none)
    (w : World O D R M) (up : Nat) (uinfo : UserInfo) :
    (GetSession (PutSession s id sesh) id).1 = sesh
    ∧ (GetSession (PutSession s id sesh) j).1 = (GetSession s j).1
    ∧ mapFind (PutSession s id sesh).u.sessions j = mapFind s.u.sessions j
    ∧ notifications (since s (PutSession s id sesh)) = []
    ∧ (∀ i, (GetSession s i).2.u = s.u ∧ (GetSession s i).2.valves = s.valves)
    ∧ (GetSession s k).1 = none
    ∧ (∀ i, (GetSession (MakeUser w up uinfo) i).1 = none
        ∧ mapFind (MakeUser w up uinfo).u.sessions i = none) := by
  refine ⟨?_, ?_, ?_, ?_, ?_, ?_, ?_⟩
  · rw [GetSession_fst, PutSession_sessions, mapGet_mapStore_self]
  · rw [GetSession_fst, GetSession_fst, PutSession_sessions, mapGet_mapStore_other _ _ _ _ hj]
  · rw [PutSession_sessions, mapFind_mapStore_other _ _ _ _ hj]
  · rw [since_of_trace s _ _ (PutSession_trace s id sesh)]
    rfl
  · intro i
    exact ⟨rfl, rfl⟩
  · rw [GetSession_fst]
    exact mapGet_of_absent _ _ hk
  · intro i
    exact ⟨rfl, rfl⟩

/-- Witness for claim C6: on the fresh example user, put session 11 at id 1, look
up id 2 (another id) and id 3 (absent). -/
theorem registry_put_get_witness :
    (2 : Nat) ≠ 1 ∧ mapFind exUser.u.sessions 3 = none
    ∧ (GetSession (PutSession exUser 1 (some 11)) 1).1 = some 11
    ∧ (GetSession (PutSession exUser 1 (some 11)) 2).1 = (GetSession exUser 2).1 :=
  ⟨by decide, by decide,
   (registry_put_get exUser 1 (some 11) 2 (by decide) 3 (by decide) exWorld 7 exInfo).1,
   (registry_put_get exUser 1 (some 11) 2 (by decide) 3 (by decide) exWorld 7 exInfo).2.1⟩

/-- Claim C3. Eviction-on-empty.  On every user, so on every user whose registry
has an entry, `DelSession(id)` removes the entry at `id`, leaves the entry of
every other id `j` unchanged, and calls `delActiveUser` with `u.UID` (on `u.up`)
exactly once when the registry is empty after the removal and not at all when
an entry remains.  On a user `t` whose registry has exactly the keys 1 and 2:
`DelSession(1)` notifies nobody, the following `DelSession(2)` notifies exactly
once, and then `GetSession(1)` and `GetSession(2)` return `nil`. -/
theorem delSession_eviction (s : State O D R M) (id : Nat) (j : Nat) (hj : j ≠ id)
    (t : State O D R M) (ht : ∀ k, mapFind t.u.sessions k ≠ none ↔ (k = 1 ∨ k = 2)) :
    mapFind (DelSession s id).u.sessions id = none
    ∧ mapFind (DelSession s id).u.sessions j = mapFind s.u.sessions j
    ∧ notifications (since s (DelSession s id))
        = (if mapLen (DelSession s id).u.sessions = 0 then [(s.u.up, s.u.UID)] else [])
    ∧ (mapLen (DelSession s id).u.sessions = 0
        ↔ ∀ i, mapFind (DelSession s id).u.sessions i = none)
    ∧ notifications (since t (DelSession t 1)) = []
    ∧ notifications (since (DelSession t 1) (DelSession (DelSession t 1) 2))
        = [(t.u.up, t.u.UID)]
    ∧ (GetSession (DelSession (DelSession t 1) 2) 1).1 = none
    ∧ (GetSession (DelSession (DelSession t 1) 2) 2).1 = none := by
  have h2 : mapFind (mapDelete t.u.sessions 1) 2 ≠ none := by
    rw [mapFind_mapDelete_other _ _ _ (by decide)]
    exact (ht 2).mpr (Or.inr rfl)
  have hall : ∀ i, mapFind (mapDelete (mapDelete t.u.sessions 1) 2) i = none := by
    intro i
    by_cases h2i : i = 2
    · rw [h2i, mapFind_mapDelete_self]
    · rw [mapFind_mapDelete_other _ _ _ h2i]
      by_cases h1i : i = 1
      · rw [h1i, mapFind_mapDelete_self]
      · rw [mapFind_mapDelete_other _ _ _ h1i]
        by_contra hc
        rcases (ht i).mp hc with h | h
        · exact h1i h
        · exact h2i h
  refine ⟨?_, ?_, ?_, ?_, ?_, ?_, ?_, ?_⟩
  · rw [DelSession_sessions, mapFind_mapDelete_self]
  · rw [DelSession_sessions, mapFind_mapDelete_other _ _ _ hj]
  · rw [DelSession_notifications, DelSession_sessions]
  · exact mapLen_eq_zero_iff_no_key _
  · rw [DelSession_notifications, if_neg]
    intro h0
    exact h2 ((mapLen_eq_zero_iff_no_key _).mp h0 2)
  · rw [DelSession_notifications, DelSession_sessions, if_pos, DelSession_u]
    exact (mapLen_eq_zero_iff_no_key _).mpr hall
  · rw [GetSession_fst, DelSession_sessions, DelSession_sessions]
    exact mapGet_of_absent _ _ (hall 1)
  · rw [GetSession_fst, DelSession_sessions, DelSession_sessions]
    exact mapGet_of_absent _ _ (hall 2)

/-- Witness for claim C3: the example user with sessions at ids 1 and 2. -/
theorem delSession_eviction_witness :
    (2 : Nat) ≠ 1
    ∧ (∀ k, mapFind exTwo.u.sessions k ≠ none ↔ (k = 1 ∨ k = 2))
    ∧ notifications (since exTwo (DelSession exTwo 1)) = []
    ∧ notifications (since (DelSession exTwo 1) (DelSession (DelSession exTwo 1) 2))
        = [(exTwo.u.up, exTwo.u.UID)] :=
  have hk : ∀ k, mapFind exTwo.u.sessions k ≠ none ↔ (k = 1 ∨ k = 2) := by
    intro k
    have hm : exTwo.u.sessions = [(2, some 12), (1, some 11)] := rfl
    rw [hm]
    by_cases h2 : k = 2
    · simp [mapFind, h2]
    · by_cases h1 : k = 1
      · simp [mapFind, h1]
      · have h2' : ¬ 2 = k := fun e => h2 e.symm
        have h1' : ¬ 1 = k := fun e => h1 e.symm
        simp [mapFind, h1, h2, h1', h2']
  ⟨by decide, hk,
   (delSession_eviction exTwo 1 2 (by decide) exTwo hk).2.2.2.2.1,
   (delSession_eviction exTwo 1 2 (by decide) exTwo hk).2.2.2.2.2.1⟩

/-- Claim C4, as the code has it.  For an id that is not a key of the registry,
`DelSession(id)` leaves the `User` struct (so the registry) and the Valve store
unchanged; it calls `delActiveUser` not at all when the registry has an entry,
and exactly once, with `u.UID`, when the registry is already empty.  For every
call of `DelSession`, a notification is issued exactly when the registry is
empty after the call. -/
theorem delSession_absent (s : State O D R M) (id : Nat)
    (h : mapFind s.u.sessions id = none) :
    (DelSession s id).u = s.u
    ∧ (DelSession s id).valves = s.valves
    ∧ notifications (since s (DelSession s id))
        = (if mapLen s.u.sessions = 0 then [(s.u.up, s.u.UID)] else [])
    ∧ (∀ (t : State O D R M) (i : Nat),
        notifications (since t (DelSession t i)) ≠ []
          ↔ mapLen (DelSession t i).u.sessions = 0) := by
  refine ⟨?_, ?_, ?_, ?_⟩
  · rw [DelSession_u, mapDelete_of_absent _ _ h]
  · exact DelSession_valves s id
  · rw [DelSession_notifications, mapDelete_of_absent _ _ h]
  · intro t i
    rw [DelSession_notifications, DelSession_sessions]
    by_cases h0 : mapLen (mapDelete t.u.sessions i) = 0 <;> simp [h0]

/-- Witness for claim C4: id 5 on the example user with one session at id 1. -/
theorem delSession_absent_witness :
    mapFind exOne.u.sessions 5 = none
    ∧ (DelSession exOne 5).u = exOne.u
    ∧ notifications (since exOne (DelSession exOne 5))
        = (if mapLen exOne.u.sessions = 0 then [(exOne.u.up, exOne.u.UID)] else []) :=
  ⟨by decide, (delSession_absent exOne 5 (by decide)).1,
   (delSession_absent exOne 5 (by decide)).2.2.1⟩

/-- Counterexample to claim C4 as stated: on the user fresh from `MakeUser`, whose
registry is empty, id 5 is not present, and `DelSession(5)` calls
`delActiveUser` once although the registry was never non-empty. -/
theorem delSession_absent_counterexample :
    exUser.u.sessions = []
    ∧ mapFind exUser.u.sessions 5 = none
    ∧ (DelSession exUser 5).u.sessions = exUser.u.sessions
    ∧ notifications (since exUser (DelSession exUser 5)) = [(7, [10, 20, 30])]
    ∧ ¬ (notifications (since exUser (DelSession exUser 5)) = []) := by
  refine ⟨rfl, rfl, rfl, rfl, ?_⟩
  decide

/-! ## `GetOrCreateSession` -/

theorem GetOrCreateSession_hit (mk : MakeSessionFn O D R M) (s : State O D R M) (id : Nat)
    (obfs : O) (deobfs : D) (read : R) (a : Nat) (h : mapGet s.u.sessions id = some a) :
    GetOrCreateSession mk s id obfs deobfs read
      = ((some a, true), s.emit [Event.lock, Event.mapLoad id, Event.unlock]) := by
  unfold GetOrCreateSession
  simp only [State.emit] at *
  rw [h]
  simp

theorem GetOrCreateSession_miss (mk : MakeSessionFn O D R M) (s : State O D R M) (id : Nat)
    (obfs : O) (deobfs : D) (read : R) (h : mapGet s.u.sessions id = none) :
    GetOrCreateSession mk s id obfs deobfs read
      = (((mk id s.u.valve obfs deobfs read s.mux).1, false),
         { valves := s.valves
           nextValve := s.nextValve
           mux := (mk id s.u.valve obfs deobfs read s.mux).2
           trace := s.trace ++
             [Event.lock, Event.mapLoad id, Event.logPrintf id,
              Event.makeSession id s.u.valve obfs deobfs read
                (mk id s.u.valve obfs deobfs read s.mux).1,
              Event.mapStore id (mk id s.u.valve obfs deobfs read s.mux).1, Event.unlock]
           u := { s.u with
             sessions := mapStore s.u.sessions id
               (mk id s.u.valve obfs deobfs read s.mux).1 } }) := by
  unfold GetOrCreateSession
  simp only [State.emit, State.setSessions] at *
  rw [h]
  simp

/-- Claim C1. The contract of `GetOrCreateSession(id, obfs, deobfs, read)`, by
what the registry holds at `id`.  A non-nil session `a`: the call returns
`(a, true)`, leaves the `User` struct (so the registry), the Valve store and the
multiplex state unchanged, and calls `MakeSession` not at all.  Otherwise (no
entry, or a nil entry): it calls `MakeSession` exactly once, with
`(id, u.valve, obfs, deobfs, read)`, returns what that call returned together
with `false`, stores it at `id`, and leaves the entry of every other id `j` and
every other field of the struct unchanged. -/
theorem getOrCreateSession_contract (mk : MakeSessionFn O D R M) (s : State O D R M)
    (id : Nat) (obfs : O) (deobfs : D) (read : R) (j : Nat) (hj : j ≠ id) :
    match mapGet s.u.sessions id with
    | some a =>
      (GetOrCreateSession mk s id obfs deobfs read).1 = (some a, true)
      ∧ (GetOrCreateSession mk s id obfs deobfs read).2.u = s.u
      ∧ constructions (since s (GetOrCreateSession mk s id obfs deobfs read).2) = []
      ∧ (GetOrCreateSession mk s id obfs deobfs read).2.mux = s.mux
      ∧ (GetOrCreateSession mk s id obfs deobfs read).2.valves = s.valves
    | none =>
      (GetOrCreateSession mk s id obfs deobfs read).1
        = ((mk id s.u.valve obfs deobfs read s.mux).1, false)
      ∧ constructions (since s (GetOrCreateSession mk s id obfs deobfs read).2)
        = [(id, s.u.valve, obfs, deobfs, read, (mk id s.u.valve obfs deobfs read s.mux).1)]
      ∧ (GetOrCreateSession mk s id obfs deobfs read).2.mux
        = (mk id s.u.valve obfs deobfs read s.mux).2
      ∧ mapFind (GetOrCreateSession mk s id obfs deobfs read).2.u.sessions id
        = some (mk id s.u.valve obfs deobfs read s.mux).1
      ∧ mapFind (GetOrCreateSession mk s id obfs deobfs read).2.u.sessions j
        = mapFind s.u.sessions j
      ∧ (GetOrCreateSession mk s id obfs deobfs read).2.u
        = { s.u with
            sessions := mapStore s.u.sessions id (mk id s.u.valve obfs deobfs read s.mux).1 }
      ∧ (GetOrCreateSession mk s id obfs deobfs read).2.valves = s.valves := by
  cases h : mapGet s.u.sessions id with
  | some a =>
    simp only
    rw [GetOrCreateSession_hit mk s id obfs deobfs read a h]
    refine ⟨rfl, rfl, ?_, rfl, rfl⟩
    rw [since_of_trace s _ [Event.lock, Event.mapLoad id, Event.unlock] rfl]
    rfl
  | none =>
    simp only
    rw [GetOrCreateSession_miss mk s id obfs deobfs read h]
    refine ⟨rfl, ?_, rfl, ?_, ?_, rfl, rfl⟩
    · rw [since_of_trace s _ _ rfl]
      rfl
    · exact mapFind_mapStore_self _ _ _
    · exact mapFind_mapStore_other _ _ _ _ hj

/-- Witness for claim C1: the first call for id 1 on the fresh example user
constructs the session at address 1; the registry entry of id 2 is untouched. -/
theorem getOrCreateSession_contract_witness :
    (2 : Nat) ≠ 1
    ∧ (GetOrCreateSession exMake exUser 1 100 200 300).1 = (some 1, false)
    ∧ constructions (since exUser (GetOrCreateSession exMake exUser 1 100 200 300).2)
        = [(1, 1, 100, 200, 300, some 1)] :=
  ⟨by decide,
   (getOrCreateSession_contract exMake exUser 1 100 200 300 2 (by decide)).1,
   (getOrCreateSession_contract exMake exUser 1 100 200 300 2 (by decide)).2.1⟩

/-! ## Sequences of calls: traces grow, other ids are not touched -/

theorem constructionsOf_append (id : Nat) (a b : List (Event O D R)) :
    constructionsOf id (a ++ b) = constructionsOf id a ++ constructionsOf id b := by
  simp [constructionsOf, constructions_append]

theorem trace_eq_append_since (s t : State O D R M) (es : List (Event O D R))
    (h : t.trace = s.trace ++ es) : t.trace = s.trace ++ since s t := by
  rw [since_of_trace s t es h]
  exact h




theorem GetOrCreateSession_trace (mk : MakeSessionFn O D R M) (s : State O D R M) (id : Nat)
    (obfs : O) (deobfs : D) (read : R) :
    ∃ es, (GetOrCreateSession mk s id obfs deobfs read).2.trace = s.trace ++ es := by
  cases h : mapGet s.u.sessions id with
  | some a =>
    rw [GetOrCreateSession_hit mk s id obfs deobfs read a h]
    exact ⟨_, rfl⟩
  | none =>
    rw [GetOrCreateSession_miss mk s id obfs deobfs read h]
    exact ⟨_, rfl⟩

theorem step_trace (mk : MakeSessionFn O D R M) (s : State O D R M) (op : Op O D R) :
    (step mk s op).trace = s.trace ++ since s (step mk s op) := by
  have h : ∃ es, (step mk s op).trace = s.trace ++ es := by
    cases op with
    | GetSession id => exact ⟨_, GetSession_trace s id⟩
    | PutSession id p => exact ⟨_, PutSession_trace s id p⟩
    | DelSession id => exact ⟨_, DelSession_trace s id⟩
    | GetOrCreateSession id obfs deobfs read =>
      exact GetOrCreateSession_trace mk s id obfs deobfs read
    | _ => exact ⟨[], (List.append_nil _).symm⟩
  obtain ⟨es, hes⟩ := h
  exact trace_eq_append_since s _ es hes

theorem run_trace (mk : MakeSessionFn O D R M) (ops : List (Op O D R)) :
    ∀ s : State O D R M, (run mk s ops).trace = s.trace ++ since s (run mk s ops) := by
  induction ops with
  | nil =>
    intro s
    simp [run, since_self]
  | cons op ops ih =>
    intro s
    have h1 := step_trace mk s op
    have h2 := ih (step mk s op)
    refine trace_eq_append_since s _ (since s (step mk s op) ++
      since (step mk s op) (run mk (step mk s op) ops)) ?_
    show (run mk (step mk s op) ops).trace = _
    rw [h2, ← List.append_assoc, ← h1]

theorem since_run_cons (mk : MakeSessionFn O D R M) (s : State O D R M) (op : Op O D R)
    (ops : List (Op O D R)) :
    since s (run mk s (op :: ops))
      = since s (step mk s op) ++ since (step mk s op) (run mk (step mk s op) ops) := by
  apply since_of_trace
  show (run mk (step mk s op) ops).trace = _
  rw [run_trace mk ops (step mk s op), ← List.append_assoc, ← step_trace mk s op]

theorem constructionsOf_since (id : Nat) (s t : State O D R M) (es : List (Event O D R))
    (h : t.trace = s.trace ++ es) :
    constructionsOf id (since s t) = constructionsOf id es := by
  rw [since_of_trace s t es h]

theorem step_keeps_entry (mk : MakeSessionFn O D R M) (s : State O D R M) (id : Nat)
    (op : Op O D R) (h1 : op.putsOrDels id = false) (h2 : op.createsAt id = false) :
    mapGet (step mk s op).u.sessions id = mapGet s.u.sessions id
    ∧ constructionsOf id (since s (step mk s op)) = [] := by
  cases op with
  | GetSession i =>
    exact ⟨rfl, (constructionsOf_since id s _ _ (GetSession_trace s i)).trans rfl⟩
  | PutSession i p =>
    have hi : id ≠ i := by
      intro e
      simp [Op.putsOrDels, e] at h1
    refine ⟨?_, ?_⟩
    · show mapGet (PutSession s i p).u.sessions id = _
      rw [PutSession_sessions, mapGet_mapStore_other _ _ _ _ hi]
    · show constructionsOf id (since s (PutSession s i p)) = []
      rw [since_of_trace s _ _ (PutSession_trace s i p)]
      rfl
  | DelSession i =>
    have hi : id ≠ i := by
      intro e
      simp [Op.putsOrDels, e] at h1
    refine ⟨?_, ?_⟩
    · show mapGet (DelSession s i).u.sessions id = _
      rw [DelSession_sessions, mapGet_mapDelete_other _ _ _ hi]
    · show constructionsOf id (since s (DelSession s i)) = []
      rw [since_of_trace s _ _ (DelSession_trace s i)]
      split <;> rfl
  | GetOrCreateSession i obfs deobfs read =>
    have hi : id ≠ i := by
      intro e
      simp [Op.createsAt, e] at h2
    have hi' : ¬ i = id := fun e => hi e.symm
    show mapGet (GetOrCreateSession mk s i obfs deobfs read).2.u.sessions id = _
      ∧ constructionsOf id (since s (GetOrCreateSession mk s i obfs deobfs read).2) = []
    cases h : mapGet s.u.sessions i with
    | some a =>
      rw [GetOrCreateSession_hit mk s i obfs deobfs read a h]
      refine ⟨rfl, ?_⟩
      rw [since_of_trace s _ [Event.lock, Event.mapLoad i, Event.unlock] rfl]
      rfl
    | none =>
      rw [GetOrCreateSession_miss mk s i obfs deobfs read h]
      refine ⟨mapGet_mapStore_other _ _ _ _ hi, ?_⟩
      rw [since_of_trace s _ _ rfl]
      simp [constructionsOf, constructions, hi']
  | _ =>
    exact ⟨rfl, (constructionsOf_since id s _ [] (List.append_nil _).symm).trans rfl⟩

theorem createResults_cons_other (mk : MakeSessionFn O D R M) (s : State O D R M) (id : Nat)
    (op : Op O D R) (ops : List (Op O D R)) (h : op.createsAt id = false) :
    createResults mk id s (op :: ops) = createResults mk id (step mk s op) ops := by
  cases op with
  | GetOrCreateSession i obfs deobfs read =>
    have hi : ¬ i = id := by
      intro e
      simp [Op.createsAt, e] at h
    simp [createResults, hi, step]
  | _ => rfl

theorem createResults_cons_create (mk : MakeSessionFn O D R M) (s : State O D R M) (id : Nat)
    (obfs : O) (deobfs : D) (read : R) (ops : List (Op O D R)) :
    createResults mk id s (Op.GetOrCreateSession id obfs deobfs read :: ops)
      = (GetOrCreateSession mk s id obfs deobfs read).1
        :: createResults mk id (GetOrCreateSession mk s id obfs deobfs read).2 ops := by
  simp [createResults]

theorem Op.createsAt_eq_true (id : Nat) (op : Op O D R) (h : op.createsAt id = true) :
    ∃ obfs deobfs read, op = Op.GetOrCreateSession id obfs deobfs read := by
  cases op with
  | GetOrCreateSession i obfs deobfs read =>
    have hi : i = id := by simpa [Op.createsAt] using h
    exact ⟨obfs, deobfs, read, by rw [hi]⟩
  | _ => simp [Op.createsAt] at h

/-- Once the registry holds a non-nil session at `id`, every later call for `id`
returns it and constructs nothing. -/
theorem run_of_present (mk : MakeSessionFn O D R M) (id : Nat) (a : Nat)
    (ops : List (Op O D R)) :
    ∀ s : State O D R M, (∀ op ∈ ops, op.putsOrDels id = false) →
      mapGet s.u.sessions id = some a →
      (∀ r ∈ createResults mk id s ops, r = (some a, true))
      ∧ constructionsOf id (since s (run mk s ops)) = []
      ∧ mapGet (run mk s ops).u.sessions id = some a := by
  induction ops with
  | nil =>
    intro s _ h
    refine ⟨?_, ?_, h⟩
    · intro r hr
      simp [createResults] at hr
    · simp [run, since_self, constructionsOf, constructions]
  | cons op ops ih =>
    intro s hops h
    have hop : op.putsOrDels id = false := hops op (List.mem_cons_self _ _)
    have hrest : ∀ o ∈ ops, o.putsOrDels id = false :=
      fun o ho => hops o (List.mem_cons_of_mem _ ho)
    rw [since_run_cons, constructionsOf_append]
    cases hc : op.createsAt id with
    | false =>
      obtain ⟨hk, hn⟩ := step_keeps_entry mk s id op hop hc
      obtain ⟨i1, i2, i3⟩ := ih (step mk s op) hrest (hk.trans h)
      rw [createResults_cons_other mk s id op ops hc]
      exact ⟨i1, by rw [hn, i2]; rfl, i3⟩
    | true =>
      obtain ⟨obfs, deobfs, read, rfl⟩ := Op.createsAt_eq_true id op hc
      rw [createResults_cons_create]
      show _ ∧ constructionsOf id (since s (GetOrCreateSession mk s id obfs deobfs read).2)
          ++ constructionsOf id (since (GetOrCreateSession mk s id obfs deobfs read).2
            (run mk (GetOrCreateSession mk s id obfs deobfs read).2 ops)) = []
        ∧ mapGet (run mk (GetOrCreateSession mk s id obfs deobfs read).2 ops).u.sessions id
          = some a
      rw [GetOrCreateSession_hit mk s id obfs deobfs read a h]
      obtain ⟨i1, i2, i3⟩ :=
        ih (s.emit [Event.lock, Event.mapLoad id, Event.unlock]) hrest h
      refine ⟨?_, ?_, i3⟩
      · intro r hr
        rcases List.mem_cons.mp hr with hr | hr
        · exact hr
        · exact i1 r hr
      · rw [i2, since_of_trace s _ [Event.lock, Event.mapLoad id, Event.unlock] rfl]
        rfl

/-- While the registry holds nothing at `id`, the first call for `id` constructs
the session and every later call returns it. -/
theorem run_of_absent (mk : MakeSessionFn O D R M) (id : Nat)
    (hmk : ∀ v obfs deobfs read m, (mk id v obfs deobfs read m).1 ≠ none)
    (ops : List (Op O D R)) :
    ∀ s : State O D R M, (∀ op ∈ ops, op.putsOrDels id = false) →
      mapGet s.u.sessions id = none →
      (createResults mk id s ops = [] ∧ constructionsOf id (since s (run mk s ops)) = [])
      ∨ (∃ a rest, createResults mk id s ops = (some a, false) :: rest
          ∧ (∀ r ∈ rest, r = (some a, true))
          ∧ (constructionsOf id (since s (run mk s ops))).length = 1) := by
  induction ops with
  | nil =>
    intro s _ _
    left
    exact ⟨rfl, by simp [run, since_self, constructionsOf, constructions]⟩
  | cons op ops ih =>
    intro s hops h
    have hop : op.putsOrDels id = false := hops op (List.mem_cons_self _ _)
    have hrest : ∀ o ∈ ops, o.putsOrDels id = false :=
      fun o ho => hops o (List.mem_cons_of_mem _ ho)
    rw [since_run_cons, constructionsOf_append]
    cases hc : op.createsAt id with
    | false =>
      obtain ⟨hk, hn⟩ := step_keeps_entry mk s id op hop hc
      rw [createResults_cons_other mk s id op ops hc, hn, List.nil_append]
      exact ih (step mk s op) hrest (hk.trans h)
    | true =>
      obtain ⟨obfs, deobfs, read, rfl⟩ := Op.createsAt_eq_true id op hc
      right
      rw [createResults_cons_create]
      show ∃ a rest, _ ∧ _ ∧
        (constructionsOf id (since s (GetOrCreateSession mk s id obfs deobfs read).2)
          ++ constructionsOf id (since (GetOrCreateSession mk s id obfs deobfs read).2
            (run mk (GetOrCreateSession mk s id obfs deobfs read).2 ops))).length = 1
      have hmiss := GetOrCreateSession_miss mk s id obfs deobfs read h
      cases hp : (mk id s.u.valve obfs deobfs read s.mux).1 with
      | none => exact absurd hp (hmk _ _ _ _ _)
      | some a =>
        have hfst : (GetOrCreateSession mk s id obfs deobfs read).1 = (some a, false) := by
          rw [hmiss, hp]
        have hget : mapGet (GetOrCreateSession mk s id obfs deobfs read).2.u.sessions id
            = some a := by
          rw [hmiss, ← hp]
          exact mapGet_mapStore_self _ _ _
        have hcon : (constructionsOf id
            (since s (GetOrCreateSession mk s id obfs deobfs read).2)).length = 1 := by
          rw [hmiss, constructionsOf_since id s _ _ rfl]
          simp [constructionsOf, constructions]
        obtain ⟨i1, i2, _⟩ := run_of_present mk id a ops _ hrest hget
        refine ⟨a, _, by rw [hfst], i1, ?_⟩
        rw [i2, List.append_nil, hcon]

theorem createResults_length (mk : MakeSessionFn O D R M) (id : Nat) (ops : List (Op O D R)) :
    ∀ s : State O D R M,
      (createResults mk id s ops).length = ops.countP (Op.createsAt id) := by
  induction ops with
  | nil =>
    intro s
    rfl
  | cons op ops ih =>
    intro s
    cases hc : op.createsAt id with
    | false =>
      rw [createResults_cons_other mk s id op ops hc, ih, List.countP_cons_of_neg]
      simp [hc]
    | true =>
      obtain ⟨obfs, deobfs, read, rfl⟩ := Op.createsAt_eq_true id op hc
      rw [createResults_cons_create, List.length_cons, ih, List.countP_cons_of_pos _ _ hc]

/-- One call of `GetOrCreateSession` runs under the exclusive lock: it is taken
once and released once, every map access and the `MakeSession` call happen
while it is held, and it is not held at the return. -/
theorem GetOrCreateSession_under_lock (mk : MakeSessionFn O D R M) (s : State O D R M)
    (id : Nat) (obfs : O) (deobfs : D) (read : R) :
    (since s (GetOrCreateSession mk s id obfs deobfs read).2).countP Event.isLock = 1
    ∧ (since s (GetOrCreateSession mk s id obfs deobfs read).2).countP Event.isUnlock = 1
    ∧ lockHeld false (since s (GetOrCreateSession mk s id obfs deobfs read).2) = false
    ∧ (∀ (i : Nat) (e : Event O D R),
        (since s (GetOrCreateSession mk s id obfs deobfs read).2)[i]? = some e →
        (e.isMapAccess = true ∨ e.isConstruct = true) →
        lockHeld false ((since s (GetOrCreateSession mk s id obfs deobfs read).2).take i)
          = true) := by
  cases h : mapGet s.u.sessions id with
  | some a =>
    rw [GetOrCreateSession_hit mk s id obfs deobfs read a h,
      since_of_trace s _ [Event.lock, Event.mapLoad id, Event.unlock] rfl]
    refine ⟨rfl, rfl, rfl, ?_⟩
    intro i e hi
    rcases i with _ | _ | _ | i <;>
      simp at hi <;> subst hi <;>
      simp [lockHeld, Event.isMapAccess, Event.isConstruct]
  | none =>
    rw [GetOrCreateSession_miss mk s id obfs deobfs read h, since_of_trace s _ _ rfl]
    refine ⟨rfl, rfl, rfl, ?_⟩
    intro i e hi
    rcases i with _ | _ | _ | _ | _ | _ | i <;>
      simp at hi <;> subst hi <;>
      simp [lockHeld, Event.isMapAccess, Event.isConstruct]

/-- Claim C2. At-most-one-construction.  Take any user state, a session id, and any
sequence of atomic calls in which no `PutSession` or `DelSession` has that id
(calls on other ids and the setters may be interleaved), with a `MakeSession`
that never returns `nil` for that id.  Each call of `GetOrCreateSession` takes
the exclusive lock once, does its map accesses and its `MakeSession` call while
holding it and has released it at the return.  Let `N` be the number of
`GetOrCreateSession` calls for the id in the sequence.  Then their `N` results
all carry the same non-nil session, `MakeSession` is called for the id at most
once, namely once per result with `existing = false`; if the registry held a
non-nil session at the id beforehand every result is that session with
`existing = true`; and if it held none and `N ≥ 1`, exactly one result has
`existing = false`. -/
theorem at_most_one_construction (mk : MakeSessionFn O D R M) (s : State O D R M)
    (id : Nat) (ops : List (Op O D R))
    (hops : ∀ op ∈ ops, op.putsOrDels id = false)
    (hmk : ∀ v obfs deobfs read m, (mk id v obfs deobfs read m).1 ≠ none) :
    (∀ (t : State O D R M) (obfs : O) (deobfs : D) (read : R),
      (since t (GetOrCreateSession mk t id obfs deobfs read).2).countP Event.isLock = 1
      ∧ (since t (GetOrCreateSession mk t id obfs deobfs read).2).countP Event.isUnlock = 1
      ∧ lockHeld false (since t (GetOrCreateSession mk t id obfs deobfs read).2) = false
      ∧ (∀ (i : Nat) (e : Event O D R),
          (since t (GetOrCreateSession mk t id obfs deobfs read).2)[i]? = some e →
          (e.isMapAccess = true ∨ e.isConstruct = true) →
          lockHeld false ((since t (GetOrCreateSession mk t id obfs deobfs read).2).take i)
            = true))
    ∧ (createResults mk id s ops).length = ops.countP (Op.createsAt id)
    ∧ (∀ r1 ∈ createResults mk id s ops, ∀ r2 ∈ createResults mk id s ops, r1.1 = r2.1)
    ∧ (∀ r ∈ createResults mk id s ops, r.1 ≠ none)
    ∧ (constructionsOf id (since s (run mk s ops))).length ≤ 1
    ∧ (constructionsOf id (since s (run mk s ops))).length
        = (createResults mk id s ops).countP (fun r => r.2 = false)
    ∧ (match mapGet s.u.sessions id with
       | some a => ∀ r ∈ createResults mk id s ops, r = (some a, true)
       | none =>
         createResults mk id s ops = []
         ∨ (createResults mk id s ops).countP (fun r => r.2 = false) = 1) := by
  refine ⟨fun t obfs deobfs read => GetOrCreateSession_under_lock mk t id obfs deobfs read,
    createResults_length mk id ops s, ?_⟩
  have hcount : ∀ (a : Nat) (rest : List (SessionPtr × Bool)),
      (∀ r ∈ rest, r = (some a, true)) → rest.countP (fun r => r.2 = false) = 0 := by
    intro a rest hall
    rw [List.countP_eq_zero]
    intro r hr
    rw [hall r hr]
    simp
  cases h : mapGet s.u.sessions id with
  | some a =>
    obtain ⟨i1, i2, _⟩ := run_of_present mk id a ops s hops h
    refine ⟨?_, ?_, ?_, ?_, i1⟩
    · intro r1 h1 r2 h2
      rw [i1 r1 h1, i1 r2 h2]
    · intro r hr
      rw [i1 r hr]
      simp
    · rw [i2]
      simp
    · rw [i2, hcount a _ i1]
      rfl
  | none =>
    rcases run_of_absent mk id hmk ops s hops h with ⟨e1, e2⟩ | ⟨a, rest, e1, e2, e3⟩
    · rw [e1, e2]
      simp
    · have hc1 : ((some a, false) :: rest : List (SessionPtr × Bool)).countP
          (fun r => r.2 = false) = 1 := by
        rw [List.countP_cons_of_pos _ _ (by simp), hcount a rest e2]
      have hall : ∀ r ∈ ((some a, false) :: rest : List (SessionPtr × Bool)),
          r.1 = some a := by
        intro r hr
        rcases List.mem_cons.mp hr with hr | hr
        · rw [hr]
        · rw [e2 r hr]
      rw [e1, e3, hc1]
      refine ⟨?_, ?_, le_refl _, rfl, Or.inr rfl⟩
      · intro r1 h1 r2 h2
        rw [hall r1 h1, hall r2 h2]
      · intro r hr
        rw [hall r hr]
        simp

/-- Witness for claim C2: three calls for id 1 on the fresh example user, among
other calls. -/
theorem at_most_one_construction_witness :
    (∀ op ∈ exOps, op.putsOrDels 1 = false)
    ∧ (∀ (v : ValveRef) (obfs deobfs read m : Nat), (exMake 1 v obfs deobfs read m).1 ≠ none)
    ∧ (createResults exMake 1 exUser exOps).length = 3
    ∧ (constructionsOf 1 (since exUser (run exMake exUser exOps))).length ≤ 1
    ∧ (createResults exMake 1 exUser exOps = []
        ∨ (createResults exMake 1 exUser exOps).countP (fun r => r.2 = false) = 1) :=
  have h1 : ∀ op ∈ exOps, op.putsOrDels 1 = false := by decide
  have h2 : ∀ (v : ValveRef) (obfs deobfs read m : Nat),
      (exMake 1 v obfs deobfs read m).1 ≠ none := by
    intro v obfs deobfs read m
    simp [exMake]
  ⟨h1, h2,
   (at_most_one_construction exMake exUser 1 exOps h1 h2).2.1,
   (at_most_one_construction exMake exUser 1 exOps h1 h2).2.2.2.2.1,
   (at_most_one_construction exMake exUser 1 exOps h1 h2).2.2.2.2.2.2⟩

/-! ## What no method changes -/

theorem GetOrCreateSession_u (mk : MakeSessionFn O D R M) (s : State O D R M) (id : Nat)
    (obfs : O) (deobfs : D) (read : R) :
    ∃ m, (GetOrCreateSession mk s id obfs deobfs read).2.u = { s.u with sessions := m } := by
  cases h : mapGet s.u.sessions id with
  | some a =>
    rw [GetOrCreateSession_hit mk s id obfs deobfs read a h]
    exact ⟨s.u.sessions, rfl⟩
  | none =>
    rw [GetOrCreateSession_miss mk s id obfs deobfs read h]
    exact ⟨_, rfl⟩

/-- Every method leaves `UID`, the four rate and credit fields of the embedded
`UserInfo`, `up`, `arrUID` and the `valve` pointer of the struct as they are. -/
theorem step_frame (mk : MakeSessionFn O D R M) (s : State O D R M) (op : Op O D R) :
    (step mk s op).u.UID = s.u.UID
    ∧ (step mk s op).u.UpRate = s.u.UpRate
    ∧ (step mk s op).u.DownRate = s.u.DownRate
    ∧ (step mk s op).u.UpCredit = s.u.UpCredit
    ∧ (step mk s op).u.DownCredit = s.u.DownCredit
    ∧ (step mk s op).u.up = s.u.up
    ∧ (step mk s op).u.arrUID = s.u.arrUID
    ∧ (step mk s op).u.valve = s.u.valve := by
  cases op with
  | DelSession id =>
    show (DelSession s id).u.UID = _ ∧ (DelSession s id).u.UpRate = _
      ∧ (DelSession s id).u.DownRate = _ ∧ (DelSession s id).u.UpCredit = _
      ∧ (DelSession s id).u.DownCredit = _ ∧ (DelSession s id).u.up = _
      ∧ (DelSession s id).u.arrUID = _ ∧ (DelSession s id).u.valve = _
    rw [DelSession_u]
    exact ⟨rfl, rfl, rfl, rfl, rfl, rfl, rfl, rfl⟩
  | GetOrCreateSession id obfs deobfs read =>
    obtain ⟨m, hm⟩ := GetOrCreateSession_u mk s id obfs deobfs read
    show (GetOrCreateSession mk s id obfs deobfs read).2.u.UID = _
      ∧ (GetOrCreateSession mk s id obfs deobfs read).2.u.UpRate = _
      ∧ (GetOrCreateSession mk s id obfs deobfs read).2.u.DownRate = _
      ∧ (GetOrCreateSession mk s id obfs deobfs read).2.u.UpCredit = _
      ∧ (GetOrCreateSession mk s id obfs deobfs read).2.u.DownCredit = _
      ∧ (GetOrCreateSession mk s id obfs deobfs read).2.u.up = _
      ∧ (GetOrCreateSession mk s id obfs deobfs read).2.u.arrUID = _
      ∧ (GetOrCreateSession mk s id obfs deobfs read).2.u.valve = _
    rw [hm]
    exact ⟨rfl, rfl, rfl, rfl, rfl, rfl, rfl, rfl⟩
  | _ => exact ⟨rfl, rfl, rfl, rfl, rfl, rfl, rfl, rfl⟩

theorem run_frame (mk : MakeSessionFn O D R M) (ops : List (Op O D R)) :
    ∀ s : State O D R M,
      (run mk s ops).u.UID = s.u.UID
      ∧ (run mk s ops).u.UpRate = s.u.UpRate
      ∧ (run mk s ops).u.DownRate = s.u.DownRate
      ∧ (run mk s ops).u.UpCredit = s.u.UpCredit
      ∧ (run mk s ops).u.DownCredit = s.u.DownCredit
      ∧ (run mk s ops).u.up = s.u.up
      ∧ (run mk s ops).u.arrUID = s.u.arrUID
      ∧ (run mk s ops).u.valve = s.u.valve := by
  induction ops with
  | nil =>
    intro s
    exact ⟨rfl, rfl, rfl, rfl, rfl, rfl, rfl, rfl⟩
  | cons op ops ih =>
    intro s
    obtain ⟨a1, a2, a3, a4, a5, a6, a7, a8⟩ := ih (step mk s op)
    obtain ⟨b1, b2, b3, b4, b5, b6, b7, b8⟩ := step_frame mk s op
    exact ⟨a1.trans b1, a2.trans b2, a3.trans b3, a4.trans b4, a5.trans b5, a6.trans b6,
      a7.trans b7, a8.trans b8⟩

theorem constructions_since_same (s t : State O D R M) (h : t.trace = s.trace)
    (P : Nat × ValveRef × O × D × R × SessionPtr → Prop) :
    ∀ c ∈ constructions (since s t), P c := by
  intro c hc
  rw [since_of_trace s t [] (by rw [h, List.append_nil])] at hc
  simp [constructions] at hc

theorem step_constructions_valve (mk : MakeSessionFn O D R M) (s : State O D R M)
    (op : Op O D R) :
    ∀ c ∈ constructions (since s (step mk s op)), c.2.1 = s.u.valve := by
  cases op with
  | GetSession id =>
    show ∀ c ∈ constructions (since s (GetSession s id).2), _
    rw [since_of_trace s _ _ (GetSession_trace s id)]
    simp [constructions]
  | PutSession id p =>
    show ∀ c ∈ constructions (since s (PutSession s id p)), _
    rw [since_of_trace s _ _ (PutSession_trace s id p)]
    simp [constructions]
  | DelSession id =>
    show ∀ c ∈ constructions (since s (DelSession s id)), _
    rw [since_of_trace s _ _ (DelSession_trace s id)]
    split <;> simp [constructions]
  | GetOrCreateSession id obfs deobfs read =>
    show ∀ c ∈ constructions (since s (GetOrCreateSession mk s id obfs deobfs read).2), _
    cases h : mapGet s.u.sessions id with
    | some a =>
      rw [GetOrCreateSession_hit mk s id obfs deobfs read a h,
        since_of_trace s _ [Event.lock, Event.mapLoad id, Event.unlock] rfl]
      simp [constructions]
    | none =>
      rw [GetOrCreateSession_miss mk s id obfs deobfs read h, since_of_trace s _ _ rfl]
      simp [constructions]
  | _ => exact constructions_since_same s _ rfl _

theorem run_constructions_valve (mk : MakeSessionFn O D R M) (ops : List (Op O D R)) :
    ∀ s : State O D R M,
      ∀ c ∈ constructions (since s (run mk s ops)), c.2.1 = s.u.valve := by
  induction ops with
  | nil =>
    intro s c hc
    simp [run, since_self, constructions] at hc
  | cons op ops ih =>
    intro s c hc
    rw [since_run_cons, constructions_append] at hc
    rcases List.mem_append.mp hc with h | h
    · exact step_constructions_valve mk s op c h
    · rw [ih (step mk s op) c h]
      exact (step_frame mk s op).2.2.2.2.2.2.2

theorem run_cap_expiry (mk : MakeSessionFn O D R M) (ops : List (Op O D R)) :
    ∀ s : State O D R M,
      (run mk s ops).u.SessionsCap = capAfter s.u.SessionsCap ops
      ∧ (run mk s ops).u.ExpiryTime = expiryAfter s.u.ExpiryTime ops := by
  induction ops with
  | nil =>
    intro s
    exact ⟨rfl, rfl⟩
  | cons op ops ih =>
    intro s
    obtain ⟨h1, h2⟩ := ih (step mk s op)
    show (run mk (step mk s op) ops).u.SessionsCap = _
      ∧ (run mk (step mk s op) ops).u.ExpiryTime = _
    rw [h1, h2]
    cases op with
    | DelSession id =>
      show capAfter (DelSession s id).u.SessionsCap ops = _
        ∧ expiryAfter (DelSession s id).u.ExpiryTime ops = _
      rw [DelSession_u]
      exact ⟨rfl, rfl⟩
    | GetOrCreateSession id obfs deobfs read =>
      obtain ⟨m, hm⟩ := GetOrCreateSession_u mk s id obfs deobfs read
      show capAfter (GetOrCreateSession mk s id obfs deobfs read).2.u.SessionsCap ops = _
        ∧ expiryAfter (GetOrCreateSession mk s id obfs deobfs read).2.u.ExpiryTime ops = _
      rw [hm]
      exact ⟨rfl, rfl⟩
    | _ => exact ⟨rfl, rfl⟩

/-! ## The shared Valve and the frozen fields -/

theorem theValve_onValve (s : State O D R M) (f : Valve → Valve) :
    (s.onValve f).theValve = f s.theValve := by
  simp [State.onValve, State.theValve]

/-- Claim C5. Shared valve identity.  `MakeUser` sets `u.valve` to the Valve it has
just built with `MakeValve` (a fresh address, no other Valve object is touched);
no single method call and no sequence of method calls changes `u.valve`; and in
every sequence of calls, from any state, every `MakeSession` call receives
`u.valve` as its Valve argument, so any two constructed sessions share it.  From
a user built by `MakeUser` that Valve is the one `MakeUser` created. -/
theorem shared_valve_identity (mk : MakeSessionFn O D R M) (w : World O D R M) (up : Nat)
    (uinfo : UserInfo) (s : State O D R M) (op : Op O D R) (ops : List (Op O D R)) :
    (MakeUser w up uinfo).u.valve = w.nextValve
    ∧ (MakeUser w up uinfo).theValve
        = MakeValve uinfo.UpRate uinfo.DownRate uinfo.UpCredit uinfo.DownCredit
    ∧ (∀ r, r ≠ w.nextValve → (MakeUser w up uinfo).valves r = w.valves r)
    ∧ (step mk s op).u.valve = s.u.valve
    ∧ (run mk s ops).u.valve = s.u.valve
    ∧ (∀ c ∈ constructions (since s (run mk s ops)), c.2.1 = s.u.valve)
    ∧ (∀ c1 ∈ constructions (since s (run mk s ops)),
        ∀ c2 ∈ constructions (since s (run mk s ops)), c1.2.1 = c2.2.1)
    ∧ (run mk (MakeUser w up uinfo) ops).u.valve = w.nextValve
    ∧ (∀ c ∈ constructions (since (MakeUser w up uinfo) (run mk (MakeUser w up uinfo) ops)),
        c.2.1 = w.nextValve) := by
  refine ⟨rfl, ?_, ?_, (step_frame mk s op).2.2.2.2.2.2.2, (run_frame mk ops s).2.2.2.2.2.2.2,
    run_constructions_valve mk ops s, ?_, (run_frame mk ops _).2.2.2.2.2.2.2,
    run_constructions_valve mk ops (MakeUser w up uinfo)⟩
  · simp [MakeUser, State.theValve]
  · intro r hr
    simp [MakeUser, Function.update_noteq hr]
  · intro c1 h1 c2 h2
    rw [run_constructions_valve mk ops s c1 h1, run_constructions_valve mk ops s c2 h2]

/-- Claim C10. The rate and credit fields of the embedded `UserInfo` are frozen at
construction.  `MakeUser` copies `uinfo` into the struct and gives the Valve
cells of its own with the same initial values; `setUpRate`, `setDownRate`,
`setUpCredit`, `setDownCredit`, `addUpCredit` and `addDownCredit` leave the whole
struct unchanged and `updateInfo` changes `SessionsCap` and `ExpiryTime` only.
So after any sequence of calls on a user built by `MakeUser(up, uinfo)` the
fields `UpRate`, `DownRate`, `UpCredit`, `DownCredit` (and `UID`) are those of
`uinfo`, while `SessionsCap` and `ExpiryTime` are what the last setter wrote;
and a credit written through a setter is in the Valve, not in the struct. -/
theorem userinfo_rates_credits_frozen (mk : MakeSessionFn O D R M) (w : World O D R M)
    (up : Nat) (uinfo : UserInfo) (ops : List (Op O D R)) (s : State O D R M)
    (n delta : Int) (info : UserInfo) :
    (MakeUser w up uinfo).u.toUserInfo = uinfo
    ∧ (MakeUser w up uinfo).theValve
        = MakeValve uinfo.UpRate uinfo.DownRate uinfo.UpCredit uinfo.DownCredit
    ∧ (setUpRate s n).u = s.u ∧ (setDownRate s n).u = s.u
    ∧ (setUpCredit s n).u = s.u ∧ (setDownCredit s n).u = s.u
    ∧ (addUpCredit s delta).u = s.u ∧ (addDownCredit s delta).u = s.u
    ∧ (updateInfo s info).u
        = { s.u with SessionsCap := info.SessionsCap, ExpiryTime := info.ExpiryTime }
    ∧ (run mk (MakeUser w up uinfo) ops).u.UpRate = uinfo.UpRate
    ∧ (run mk (MakeUser w up uinfo) ops).u.DownRate = uinfo.DownRate
    ∧ (run mk (MakeUser w up uinfo) ops).u.UpCredit = uinfo.UpCredit
    ∧ (run mk (MakeUser w up uinfo) ops).u.DownCredit = uinfo.DownCredit
    ∧ (run mk (MakeUser w up uinfo) ops).u.UID = uinfo.UID
    ∧ (run mk (MakeUser w up uinfo) ops).u.SessionsCap = capAfter uinfo.SessionsCap ops
    ∧ (run mk (MakeUser w up uinfo) ops).u.ExpiryTime = expiryAfter uinfo.ExpiryTime ops
    ∧ (setUpCredit (MakeUser w up uinfo) n).theValve.rxCredit = n
    ∧ (setUpCredit (MakeUser w up uinfo) n).u.UpCredit = uinfo.UpCredit
    ∧ (setDownCredit (MakeUser w up uinfo) n).theValve.txCredit = n
    ∧ (setDownCredit (MakeUser w up uinfo) n).u.DownCredit = uinfo.DownCredit
    ∧ (setUpRate (MakeUser w up uinfo) n).theValve.rxRate = n
    ∧ (setUpRate (MakeUser w up uinfo) n).u.UpRate = uinfo.UpRate
    ∧ (setDownRate (MakeUser w up uinfo) n).theValve.txRate = n
    ∧ (setDownRate (MakeUser w up uinfo) n).u.DownRate = uinfo.DownRate := by
  obtain ⟨f1, f2, f3, f4, f5, _, _, _⟩ := run_frame mk ops (MakeUser w up uinfo)
  obtain ⟨g1, g2⟩ := run_cap_expiry mk ops (MakeUser w up uinfo)
  refine ⟨rfl, ?_, rfl, rfl, rfl, rfl, rfl, rfl, rfl, f2, f3, f4, f5, f1, g1, g2,
    ?_, rfl, ?_, rfl, ?_, rfl, ?_, rfl⟩
  · simp [MakeUser, State.theValve]
  · rw [setUpCredit, theValve_onValve]
    rfl
  · rw [setDownCredit, theValve_onValve]
    rfl
  · rw [setUpRate, theValve_onValve]
    rfl
  · rw [setDownRate, theValve_onValve]
    rfl

/-! ## `updateInfo` -/

theorem updateInfo_valves (s : State O D R M) (info : UserInfo) :
    (updateInfo s info).valves
      = Function.update s.valves s.u.valve
          { rxRate := info.UpRate, txRate := info.DownRate,
            rxCredit := info.UpCredit, txCredit := info.DownCredit } := by
  simp [updateInfo, setSessionsCap, setUpCredit, setDownCredit, setUpRate, setDownRate,
    setExpiryTime, State.onValve, Valve.SetRxCredit, Valve.SetTxCredit, Valve.SetRxRate,
    Valve.SetTxRate]

theorem updateInfo_eq (s : State O D R M) (info : UserInfo) :
    updateInfo s info
      = { valves := Function.update s.valves s.u.valve
            { rxRate := info.UpRate, txRate := info.DownRate,
              rxCredit := info.UpCredit, txCredit := info.DownCredit }
          nextValve := s.nextValve
          mux := s.mux
          trace := s.trace
          u := { s.u with SessionsCap := info.SessionsCap, ExpiryTime := info.ExpiryTime } } := by
  have h := updateInfo_valves s info
  have e : updateInfo s info
      = { valves := (updateInfo s info).valves, nextValve := s.nextValve, mux := s.mux,
          trace := s.trace,
          u := { s.u with SessionsCap := info.SessionsCap, ExpiryTime := info.ExpiryTime } } :=
    rfl
  rw [e, h]

/-- Claim C7. `updateInfo(info)` is the six setters applied one after the other (in
the order of the body, and with the same result in the order in which the
specification lists them).  It ends with `u.SessionsCap = info.SessionsCap`,
`u.ExpiryTime = info.ExpiryTime`, and in the shared Valve inbound credit
`info.UpCredit`, outbound credit `info.DownCredit`, inbound rate `info.UpRate`,
outbound rate `info.DownRate`.  `UID` (so `info.UID` is ignored), `arrUID`, `up`,
the `valve` pointer, the registry, every other Valve object `r`, the trace and
the multiplex state are unchanged, and applying the same `info` a second time
changes nothing. -/
theorem updateInfo_effect (s : State O D R M) (info : UserInfo) (r : ValveRef)
    (hr : r ≠ s.u.valve) :
    updateInfo s info
      = setExpiryTime (setDownRate (setUpRate (setDownCredit (setUpCredit
          (setSessionsCap s info.SessionsCap) info.UpCredit) info.DownCredit)
          info.UpRate) info.DownRate) info.ExpiryTime
    ∧ updateInfo s info
      = setExpiryTime (setDownCredit (setUpCredit (setDownRate (setUpRate
          (setSessionsCap s info.SessionsCap) info.UpRate) info.DownRate)
          info.UpCredit) info.DownCredit) info.ExpiryTime
    ∧ (updateInfo s info).u.SessionsCap = info.SessionsCap
    ∧ (updateInfo s info).u.ExpiryTime = info.ExpiryTime
    ∧ (updateInfo s info).theValve.rxCredit = info.UpCredit
    ∧ (updateInfo s info).theValve.txCredit = info.DownCredit
    ∧ (updateInfo s info).theValve.rxRate = info.UpRate
    ∧ (updateInfo s info).theValve.txRate = info.DownRate
    ∧ (updateInfo s info).u.UID = s.u.UID
    ∧ (updateInfo s info).u.arrUID = s.u.arrUID
    ∧ (updateInfo s info).u.up = s.u.up
    ∧ (updateInfo s info).u.valve = s.u.valve
    ∧ (updateInfo s info).u.sessions = s.u.sessions
    ∧ (updateInfo s info).u.UpRate = s.u.UpRate
    ∧ (updateInfo s info).u.DownRate = s.u.DownRate
    ∧ (updateInfo s info).u.UpCredit = s.u.UpCredit
    ∧ (updateInfo s info).u.DownCredit = s.u.DownCredit
    ∧ (updateInfo s info).valves r = s.valves r
    ∧ (updateInfo s info).trace = s.trace
    ∧ (updateInfo s info).mux = s.mux
    ∧ updateInfo (updateInfo s info) info = updateInfo s info := by
  have hv : (updateInfo s info).theValve
      = { rxRate := info.UpRate, txRate := info.DownRate,
          rxCredit := info.UpCredit, txCredit := info.DownCredit } := by
    show (updateInfo s info).valves s.u.valve = _
    rw [updateInfo_valves, Function.update_same]
  refine ⟨rfl, ?_, rfl, rfl, ?_, ?_, ?_, ?_, rfl, rfl, rfl, rfl, rfl, rfl, rfl, rfl, rfl,
    ?_, rfl, rfl, ?_⟩
  · rw [updateInfo_eq]
    simp [setSessionsCap, setUpCredit, setDownCredit, setUpRate, setDownRate,
      setExpiryTime, State.onValve, Valve.SetRxCredit, Valve.SetTxCredit, Valve.SetRxRate,
      Valve.SetTxRate]
  · rw [hv]
  · rw [hv]
  · rw [hv]
  · rw [hv]
  · rw [updateInfo_valves, Function.update_noteq hr]
  · rw [updateInfo_eq (updateInfo s info) info, updateInfo_eq s info]
    simp

/-- Witness for claim C7: a new policy record on the fresh example user, whose Valve
is at address 1; the Valve object at address 2 is another one. -/
theorem updateInfo_effect_witness :
    (2 : ValveRef) ≠ exUser.u.valve
    ∧ (updateInfo exUser { exInfo with UpCredit := 5, UpRate := 7 }).theValve.rxCredit = 5
    ∧ (updateInfo exUser { exInfo with UpCredit := 5, UpRate := 7 }).theValve.rxRate = 7
    ∧ (updateInfo exUser { exInfo with UpCredit := 5, UpRate := 7 }).valves 2
        = exUser.valves 2 :=
  ⟨by decide,
   (updateInfo_effect exUser { exInfo with UpCredit := 5, UpRate := 7 } 2 (by decide)).2.2.2.2.1,
   (updateInfo_effect exUser { exInfo with UpCredit := 5, UpRate := 7 } 2
     (by decide)).2.2.2.2.2.2.1,
   (updateInfo_effect exUser { exInfo with UpCredit := 5, UpRate := 7 } 2
     (by decide)).2.2.2.2.2.2.2.2.2.2.2.2.2.2.2.2.2.1⟩

/-! ## Credit arithmetic -/

theorem wrap64_of_isInt64 (x : Int) (h : isInt64 x) : wrap64 x = x := by
  unfold isInt64 at h
  unfold wrap64
  omega

theorem isInt64_wrap64 (x : Int) : isInt64 (wrap64 x) := by
  unfold isInt64 wrap64
  omega

theorem wrap64_wrap64_add (a b : Int) : wrap64 (wrap64 a + b) = wrap64 (a + b) := by
  unfold wrap64
  omega

/-- The balance after adding the deltas of a list one by one, each sum wrapped. -/
theorem foldl_wrap64 (ds : List Int) :
    ∀ c : Int, wrap64 (ds.foldl (fun a d => wrap64 (a + d)) c) = wrap64 (c + ds.sum) := by
  induction ds with
  | nil =>
    intro c
    simp
  | cons d rest ih =>
    intro c
    rw [List.foldl_cons, ih, wrap64_wrap64_add, List.sum_cons, add_assoc]

theorem foldl_isInt64 (ds : List Int) :
    ∀ c : Int, isInt64 c → isInt64 (ds.foldl (fun a d => wrap64 (a + d)) c) := by
  induction ds with
  | nil =>
    intro c h
    exact h
  | cons d rest ih =>
    intro c _
    rw [List.foldl_cons]
    exact ih _ (isInt64_wrap64 _)

theorem foldl_wrap64_of_isInt64 (ds : List Int) (c : Int) (h : isInt64 c) :
    ds.foldl (fun a d => wrap64 (a + d)) c = wrap64 (c + ds.sum) := by
  rw [← foldl_wrap64, wrap64_of_isInt64 _ (foldl_isInt64 ds c h)]

theorem addUpCredit_theValve (s : State O D R M) (delta : Int) :
    (addUpCredit s delta).theValve
      = { s.theValve with rxCredit := wrap64 (s.theValve.rxCredit + delta) } := by
  rw [addUpCredit, theValve_onValve]
  rfl

theorem addDownCredit_theValve (s : State O D R M) (delta : Int) :
    (addDownCredit s delta).theValve
      = { s.theValve with txCredit := wrap64 (s.theValve.txCredit + delta) } := by
  rw [addDownCredit, theValve_onValve]
  rfl

theorem adjustUp_theValve (ds : List Int) :
    ∀ s : State O D R M,
      (adjustUp s ds).theValve
        = { s.theValve with
            rxCredit := ds.foldl (fun a d => wrap64 (a + d)) s.theValve.rxCredit }
      ∧ (adjustUp s ds).u = s.u ∧ (adjustUp s ds).trace = s.trace := by
  induction ds with
  | nil =>
    intro s
    exact ⟨rfl, rfl, rfl⟩
  | cons d rest ih =>
    intro s
    obtain ⟨h1, h2, h3⟩ := ih (addUpCredit s d)
    show (adjustUp (addUpCredit s d) rest).theValve = _
      ∧ (adjustUp (addUpCredit s d) rest).u = _ ∧ (adjustUp (addUpCredit s d) rest).trace = _
    rw [h1, h2, h3, addUpCredit_theValve]
    exact ⟨rfl, rfl, rfl⟩

theorem adjustDown_theValve (ds : List Int) :
    ∀ s : State O D R M,
      (adjustDown s ds).theValve
        = { s.theValve with
            txCredit := ds.foldl (fun a d => wrap64 (a + d)) s.theValve.txCredit }
      ∧ (adjustDown s ds).u = s.u ∧ (adjustDown s ds).trace = s.trace := by
  induction ds with
  | nil =>
    intro s
    exact ⟨rfl, rfl, rfl⟩
  | cons d rest ih =>
    intro s
    obtain ⟨h1, h2, h3⟩ := ih (addDownCredit s d)
    show (adjustDown (addDownCredit s d) rest).theValve = _
      ∧ (adjustDown (addDownCredit s d) rest).u = _
      ∧ (adjustDown (addDownCredit s d) rest).trace = _
    rw [h1, h2, h3, addDownCredit_theValve]
    exact ⟨rfl, rfl, rfl⟩

theorem sum_replicate_neg (k : Nat) (d : Int) :
    (List.replicate k (-d)).sum = -((k : Int) * d) := by
  induction k with
  | zero => simp
  | succ n ih =>
    rw [List.replicate_succ, List.sum_cons, ih]
    push_cast
    ring

/-- Claim C8. Credit adjustment is exact and additive, in `int64` arithmetic, on a
state whose two balances are `int64` values.  `addUpCredit(delta)` takes the
Valve's inbound credit from `c` to `wrap64 (c + delta)`, which is `c + delta`
whenever that is an `int64`, and `addDownCredit(delta)` does the same to the
outbound credit; each leaves the other credit, both rates, the `User` struct
(so the registry) and the trace unchanged.  The balance after a list of
adjustments is `wrap64 (c + sum)`, the same for every order of the list; after
`k` adjustments by `-d` it is `wrap64 (c - k * d)`, that is `c - k * d` when this
is an `int64`.  A balance may become negative: from `DownCredit = 1000`, the
adjustments `-400` and `-700` leave `-100` in either order. -/
theorem credit_adjustment (s : State O D R M) (delta : Int) (ds ds' : List Int)
    (hperm : ds.Perm ds') (k : Nat) (d : Int)
    (hup : isInt64 s.theValve.rxCredit) (hdown : isInt64 s.theValve.txCredit)
    (w : World O D R M) (up : Nat) (uinfo : UserInfo) :
    ((addUpCredit s delta).theValve.rxCredit = wrap64 (s.theValve.rxCredit + delta)
      ∧ (isInt64 (s.theValve.rxCredit + delta) →
          (addUpCredit s delta).theValve.rxCredit = s.theValve.rxCredit + delta)
      ∧ (addUpCredit s delta).theValve.txCredit = s.theValve.txCredit
      ∧ (addUpCredit s delta).theValve.rxRate = s.theValve.rxRate
      ∧ (addUpCredit s delta).theValve.txRate = s.theValve.txRate
      ∧ (addUpCredit s delta).u = s.u
      ∧ (addUpCredit s delta).trace = s.trace)
    ∧ ((addDownCredit s delta).theValve.txCredit = wrap64 (s.theValve.txCredit + delta)
      ∧ (isInt64 (s.theValve.txCredit + delta) →
          (addDownCredit s delta).theValve.txCredit = s.theValve.txCredit + delta)
      ∧ (addDownCredit s delta).theValve.rxCredit = s.theValve.rxCredit
      ∧ (addDownCredit s delta).theValve.rxRate = s.theValve.rxRate
      ∧ (addDownCredit s delta).theValve.txRate = s.theValve.txRate
      ∧ (addDownCredit s delta).u = s.u
      ∧ (addDownCredit s delta).trace = s.trace)
    ∧ ((adjustUp s ds).theValve.rxCredit = wrap64 (s.theValve.rxCredit + ds.sum)
      ∧ (adjustUp s ds').theValve.rxCredit = (adjustUp s ds).theValve.rxCredit
      ∧ (adjustUp s (List.replicate k (-d))).theValve.rxCredit
          = wrap64 (s.theValve.rxCredit - k * d)
      ∧ (isInt64 (s.theValve.rxCredit - k * d) →
          (adjustUp s (List.replicate k (-d))).theValve.rxCredit
            = s.theValve.rxCredit - k * d))
    ∧ ((adjustDown s ds).theValve.txCredit = wrap64 (s.theValve.txCredit + ds.sum)
      ∧ (adjustDown s ds').theValve.txCredit = (adjustDown s ds).theValve.txCredit
      ∧ (adjustDown s (List.replicate k (-d))).theValve.txCredit
          = wrap64 (s.theValve.txCredit - k * d)
      ∧ (isInt64 (s.theValve.txCredit - k * d) →
          (adjustDown s (List.replicate k (-d))).theValve.txCredit
            = s.theValve.txCredit - k * d))
    ∧ (adjustDown (MakeUser w up { uinfo with DownCredit := 1000 })
          [-400, -700]).theValve.txCredit = -100
    ∧ (adjustDown (MakeUser w up { uinfo with DownCredit := 1000 })
          [-700, -400]).theValve.txCredit = -100 := by
  have hU : ∀ l : List Int,
      (adjustUp s l).theValve.rxCredit = wrap64 (s.theValve.rxCredit + l.sum) := by
    intro l
    rw [(adjustUp_theValve l s).1]
    exact foldl_wrap64_of_isInt64 l _ hup
  have hD : ∀ l : List Int,
      (adjustDown s l).theValve.txCredit = wrap64 (s.theValve.txCredit + l.sum) := by
    intro l
    rw [(adjustDown_theValve l s).1]
    exact foldl_wrap64_of_isInt64 l _ hdown
  have hk : s.theValve.rxCredit + (List.replicate k (-d)).sum = s.theValve.rxCredit - k * d := by
    rw [sum_replicate_neg]
    ring
  have hk' : s.theValve.txCredit + (List.replicate k (-d)).sum
      = s.theValve.txCredit - k * d := by
    rw [sum_replicate_neg]
    ring
  have hex : ∀ l : List Int, l.sum = -1100 →
      (adjustDown (MakeUser w up { uinfo with DownCredit := 1000 }) l).theValve.txCredit
        = -100 := by
    intro l hl
    have h0 : (MakeUser w up { uinfo with DownCredit := 1000 }).theValve.txCredit = 1000 := by
      simp [MakeUser, State.theValve, MakeValve]
    rw [(adjustDown_theValve l _).1]
    show l.foldl (fun a d => wrap64 (a + d))
      (MakeUser w up { uinfo with DownCredit := 1000 }).theValve.txCredit = -100
    rw [h0, foldl_wrap64_of_isInt64 l 1000 (by decide), hl]
    decide
  refine ⟨⟨?_, ?_, ?_, ?_, ?_, rfl, rfl⟩, ⟨?_, ?_, ?_, ?_, ?_, rfl, rfl⟩,
    ⟨hU ds, ?_, ?_, ?_⟩, ⟨hD ds, ?_, ?_, ?_⟩, hex _ (by decide), hex _ (by decide)⟩
  · rw [addUpCredit_theValve]
  · intro h
    rw [addUpCredit_theValve]
    exact wrap64_of_isInt64 _ h
  · rw [addUpCredit_theValve]
  · rw [addUpCredit_theValve]
  · rw [addUpCredit_theValve]
  · rw [addDownCredit_theValve]
  · intro h
    rw [addDownCredit_theValve]
    exact wrap64_of_isInt64 _ h
  · rw [addDownCredit_theValve]
  · rw [addDownCredit_theValve]
  · rw [addDownCredit_theValve]
  · rw [hU ds', hU ds, hperm.sum_eq]
  · rw [hU, hk]
  · intro h
    rw [hU, hk]
    exact wrap64_of_isInt64 _ h
  · rw [hD ds', hD ds, hperm.sum_eq]
  · rw [hD, hk']
  · intro h
    rw [hD, hk']
    exact wrap64_of_isInt64 _ h

/-- Witness for claim C8: the example user (both balances 1000), the adjustments
`-400` and `-700` in both orders, and three adjustments by `-400`. -/
theorem credit_adjustment_witness :
    [(-400 : Int), -700].Perm [-700, -400]
    ∧ isInt64 exUser.theValve.rxCredit ∧ isInt64 exUser.theValve.txCredit
    ∧ (adjustDown exUser [-700, -400]).theValve.txCredit
        = (adjustDown exUser [-400, -700]).theValve.txCredit
    ∧ isInt64 (exUser.theValve.txCredit - (3 : Nat) * 400)
    ∧ (adjustDown exUser (List.replicate 3 (-400))).theValve.txCredit
        = exUser.theValve.txCredit - (3 : Nat) * 400 :=
  ⟨List.Perm.swap _ _ _, by decide, by decide,
   (credit_adjustment exUser (-400) [-400, -700] [-700, -400] (List.Perm.swap _ _ _) 3 400
     (by decide) (by decide) exWorld 7 exInfo).2.2.2.1.2.1,
   by decide,
   (credit_adjustment exUser (-400) [-400, -700] [-700, -400] (List.Perm.swap _ _ _) 3 400
     (by decide) (by decide) exWorld 7 exInfo).2.2.2.1.2.2.2 (by decide)⟩

/-! ## Lock discipline of `DelSession` -/

theorem DelSession_since (s : State O D R M) (id : Nat) :
    since s (DelSession s id)
      = if mapLen (mapDelete s.u.sessions id) = 0
        then [Event.lock, Event.mapDelete id, Event.mapLen, Event.unlock,
              Event.delActiveUser s.u.up s.u.UID]
        else [Event.lock, Event.mapDelete id, Event.mapLen, Event.unlock] :=
  since_of_trace s _ _ (DelSession_trace s id)

/-- Claim C9. Lock discipline of `DelSession`.  On every path of one call of
`DelSession(id)`, whatever the state: the exclusive lock is acquired exactly
once, as the first event, and released exactly once, as the fourth; the
removal and the length test come in between, and every access to the map (the
event at any position `i` that is a map access) happens with the lock held; at
most one notification is issued, and a notification (the event at any position
`i` that is a call of `delActiveUser`) happens with the lock not held, after the
removal and after the release, as the last event before the return, with
`u.UID`, and only when the registry is empty; when the registry is empty it is
issued; and the lock is not held when the call returns. -/
theorem delSession_lock_discipline (s : State O D R M) (id : Nat) :
    (DelSession s id).trace = s.trace ++ since s (DelSession s id)
    ∧ (since s (DelSession s id)).countP Event.isLock = 1
    ∧ (since s (DelSession s id)).countP Event.isUnlock = 1
    ∧ (since s (DelSession s id)).countP Event.isNotify ≤ 1
    ∧ (since s (DelSession s id))[0]? = some Event.lock
    ∧ (since s (DelSession s id))[1]? = some (Event.mapDelete id)
    ∧ (since s (DelSession s id))[2]? = some Event.mapLen
    ∧ (since s (DelSession s id))[3]? = some Event.unlock
    ∧ lockHeld false ((since s (DelSession s id)).take 1) = true
    ∧ lockHeld false ((since s (DelSession s id)).take 4) = false
    ∧ lockHeld false (since s (DelSession s id)) = false
    ∧ (∀ (i : Nat) (e : Event O D R), (since s (DelSession s id))[i]? = some e →
        e.isMapAccess = true →
        lockHeld false ((since s (DelSession s id)).take i) = true)
    ∧ (∀ (i : Nat) (e : Event O D R), (since s (DelSession s id))[i]? = some e →
        e.isNotify = true →
        lockHeld false ((since s (DelSession s id)).take i) = false
        ∧ Event.mapDelete id ∈ (since s (DelSession s id)).take i
        ∧ Event.unlock ∈ (since s (DelSession s id)).take i
        ∧ i + 1 = (since s (DelSession s id)).length
        ∧ e = Event.delActiveUser s.u.up s.u.UID
        ∧ mapLen (DelSession s id).u.sessions = 0)
    ∧ (if mapLen (DelSession s id).u.sessions = 0
        then (since s (DelSession s id)).countP Event.isNotify = 1
          ∧ (since s (DelSession s id))[4]? = some (Event.delActiveUser s.u.up s.u.UID)
          ∧ (since s (DelSession s id)).length = 5
        else (since s (DelSession s id)).countP Event.isNotify = 0
          ∧ (since s (DelSession s id)).length = 4) := by
  refine ⟨trace_eq_append_since s _ _ (DelSession_trace s id), ?_⟩
  rw [DelSession_sessions, DelSession_since]
  by_cases h0 : mapLen (mapDelete s.u.sessions id) = 0
  · rw [if_pos h0, if_pos h0]
    refine ⟨rfl, rfl, le_of_eq rfl, rfl, rfl, rfl, rfl, rfl, rfl, rfl, ?_, ?_, rfl, rfl, rfl⟩
    · intro i e hi
      rcases i with _ | _ | _ | _ | _ | i <;>
        simp at hi <;> subst hi <;>
        simp [lockHeld, Event.isMapAccess]
    · intro i e hi
      rcases i with _ | _ | _ | _ | _ | i <;>
        simp at hi <;> subst hi <;>
        simp [lockHeld, Event.isNotify, h0]
  · rw [if_neg h0, if_neg h0]
    refine ⟨rfl, rfl, Nat.zero_le 1, rfl, rfl, rfl, rfl, rfl, rfl, rfl, ?_, ?_, rfl, rfl⟩
    · intro i e hi
      rcases i with _ | _ | _ | _ | i <;>
        simp at hi <;> subst hi <;>
        simp [lockHeld, Event.isMapAccess]
    · intro i e hi
      rcases i with _ | _ | _ | _ | i <;>
        simp at hi <;> subst hi <;>
        simp [lockHeld, Event.isNotify]

/-- Witness for claim C9: deleting the only session of the example user, where
the fifth event of the call is the notification, and deleting one of two
sessions, where the lock is taken and released once and nobody is notified. -/
theorem delSession_lock_discipline_witness :
    (since exOne (DelSession exOne 1))[4]? = some (Event.delActiveUser 7 [10, 20, 30])
    ∧ (Event.delActiveUser 7 [10, 20, 30] : Event Nat Nat Nat).isNotify = true
    ∧ lockHeld false ((since exOne (DelSession exOne 1)).take 4) = false
    ∧ Event.mapDelete 1 ∈ (since exOne (DelSession exOne 1)).take 4
    ∧ (since exOne (DelSession exOne 1))[1]? = some (Event.mapDelete 1)
    ∧ (Event.mapDelete 1 : Event Nat Nat Nat).isMapAccess = true
    ∧ lockHeld false ((since exOne (DelSession exOne 1)).take 1) = true
    ∧ (since exTwo (DelSession exTwo 1)).countP Event.isLock = 1
    ∧ (since exTwo (DelSession exTwo 1)).countP Event.isUnlock = 1
    ∧ lockHeld false (since exTwo (DelSession exTwo 1)) = false :=
  ⟨rfl, rfl,
   ((delSession_lock_discipline exOne 1).2.2.2.2.2.2.2.2.2.2.2.2.1 4
     (Event.delActiveUser 7 [10, 20, 30]) rfl rfl).1,
   ((delSession_lock_discipline exOne 1).2.2.2.2.2.2.2.2.2.2.2.2.1 4
     (Event.delActiveUser 7 [10, 20, 30]) rfl rfl).2.1,
   rfl, rfl,
   (delSession_lock_discipline exOne 1).2.2.2.2.2.2.2.2.2.2.2.1 1
     (Event.mapDelete 1) rfl rfl,
   (delSession_lock_discipline exTwo 1).2.1,
   (delSession_lock_discipline exTwo 1).2.2.1,
   (delSession_lock_discipline exTwo 1).2.2.2.2.2.2.2.2.2.2.1⟩

/-- Witness for claim C5: in the example sequence of calls the session of id 2
is constructed with the Valve at address 1, the one `MakeUser` created, and the
Valve object at address 2 is not touched by `MakeUser`. -/
theorem shared_valve_identity_witness :
    (2, 1, 0, 0, 0, some 2) ∈ constructions (since exUser (run exMake exUser exOps))
    ∧ (2 : ValveRef) ≠ exWorld.nextValve
    ∧ (1 : ValveRef) = exUser.u.valve
    ∧ (MakeUser exWorld 7 exInfo).valves 2 = exWorld.valves 2 :=
  ⟨by decide, by decide,
   (shared_valve_identity exMake exWorld 7 exInfo exUser (Op.setUpRate 5) exOps).2.2.2.2.2.1
     (2, 1, 0, 0, 0, some 2) (by decide),
   (shared_valve_identity exMake exWorld 7 exInfo exUser (Op.setUpRate 5) exOps).2.2.1
     2 (by decide)⟩

end Usermanager
